import Mathlib

/-!
Verification development for the Tick language core (compile-and-execute
pipeline: lexer, bytecode compiler, stack VM, runtime with signal queues and
event registry, bytecode cache).

The definitions below are shallow embeddings of the C++ sources:
* `src/runtime/runtime.h` / `runtime.cpp` (Value, SignalQueue, EventScheduler, Runtime)
* `src/runtime/string_pool.cpp` (StringPool)
* `src/runtime/interpreter.cpp` (both dispatch loops)
* `src/runtime/codegen.cpp` (bytecode compiler)
* `src/runtime/cache.h` (bytecode cache validity)
* `src/compiler/lexer.cpp` (tokenizer)
* `src/main.cpp` (process registration)

Modelling conventions:
* C++ `int` payloads are carried as `Int`; the claims settled here do not
  depend on 32-bit wraparound, and where the C++ performs an operation whose
  behaviour is undefined (integer division by zero, reads of an inactive
  union member, unchecked container indexing out of bounds) the embedding
  returns `none` / a distinguished undefined outcome.
* `float` / `double` payloads are carried as `Rat`; the claims settled here
  inspect only the tag of a floating value and whether a value is produced,
  never IEEE rounding behaviour.
* C++ heap pointers (array handles) become indices into an explicit heap.
* The pointer-keyed hash maps of the runtime are modelled as association
  lists keyed by string contents, with `insert` replacing an existing key.
-/

namespace Tick

/-- Tagged value union of the VM, from `struct Value` in `runtime.h`.
Variants: `INT`, `BOOL`, `FLOAT`, `DOUBLE`, `STRING` (interned handle),
`ARRAY` (heap handle), `NONE`. -/
inductive Value where
  | intV (n : Int)
  | boolV (b : Bool)
  | floatV (q : Rat)
  | doubleV (q : Rat)
  | stringV (sid : Int)
  | arrayV (h : Nat)
  | noneV
  deriving DecidableEq

/-- `StringPool::add` from `string_pool.cpp`: scan for the first index whose
entry equals `s` and return it, else append `s` and return the new index
(the old length).  The C++ loop over ascending indices is rendered as
structural recursion over the pool list. -/
def poolAdd : List String → String → Nat × List String
  | [], s => (0, [s])
  | p :: ps, s =>
      if p = s then (0, p :: ps)
      else
        let r := poolAdd ps s
        (r.1 + 1, p :: r.2)

/-- `StringPool::get` from `string_pool.cpp`: return the entry at `index`
when `0 <= index < size`, else the empty string. -/
def poolGet (pool : List String) (i : Int) : String :=
  if 0 ≤ i ∧ i < (pool.length : Int) then pool.getD i.toNat "" else ""

/-- `SignalQueue` state from `runtime.h` / `runtime.cpp`: the backing
dynamic array plus write and read cursors.  The mutex and condition
variable make `emit` / `recv` atomic; the embedding exposes them as
atomic state transitions. -/
structure SQ where
  queue : List Value
  wpos : Nat
  rpos : Nat
  deriving DecidableEq

/-- A fresh `SignalQueue` (constructor in `runtime.cpp`): both cursors zero. -/
def SQ.init : SQ := ⟨[], 0, 0⟩

/-- `SignalQueue::emit` from `runtime.cpp`: if the write cursor is past the
end of the backing array, push; else overwrite in place; then advance the
write cursor. -/
def SQ.emit (s : SQ) (v : Value) : SQ :=
  if s.queue.length ≤ s.wpos then
    ⟨s.queue ++ [v], s.wpos + 1, s.rpos⟩
  else
    ⟨s.queue.set s.wpos v, s.wpos + 1, s.rpos⟩

/-- `SignalQueue::recv` from `runtime.cpp`.  While `read_pos >= write_pos`
the caller blocks on the condition variable: rendered as `none` (no value
can be delivered from this state by the queue alone).  Otherwise the entry
at the read cursor is taken, the cursor advances, and when the cursors
meet both are reset to zero.  The C++ array access is unchecked; the
embedding uses `getD`, and `sqInv` (proved preserved) keeps it in bounds. -/
def SQ.recv (s : SQ) : Option (Value × SQ) :=
  if s.wpos ≤ s.rpos then none
  else
    let v := s.queue.getD s.rpos Value.noneV
    if s.rpos + 1 = s.wpos then some (v, ⟨s.queue, 0, 0⟩)
    else some (v, ⟨s.queue, s.wpos, s.rpos + 1⟩)

/-- `SignalQueue::has_value` from `runtime.cpp`. -/
def SQ.hasValue (s : SQ) : Bool := decide (s.rpos < s.wpos)

/-- Structural invariant of a `SignalQueue`: the write cursor never passes
the end of the backing array and the read cursor never passes the write
cursor.  It holds for `SQ.init` and is preserved by `emit` and `recv`. -/
def sqInv (s : SQ) : Prop := s.wpos ≤ s.queue.length ∧ s.rpos ≤ s.wpos

instance (s : SQ) : Decidable (sqInv s) := by unfold sqInv; infer_instance

/-- The abstract FIFO contents of a `SignalQueue`: the slice of the backing
array between the read cursor and the write cursor. -/
def SQ.contents (s : SQ) : List Value := (s.queue.take s.wpos).drop s.rpos

/-! ## Bytecode cache (`src/runtime/cache.h`) -/

/-- The cache file header, from `struct CacheHeader` in `cache.h`.  All
fields are fixed-width unsigned integers, carried here as `Nat`. -/
structure CacheHeader where
  magic : Nat
  version : Nat
  sourceMtime : Nat
  sourceSize : Nat
  numFunctions : Nat
  numProcesses : Nat
  numEvents : Nat
  numSignals : Nat
  numClasses : Nat
  stringPoolSize : Nat
  constantsSize : Nat
  deriving DecidableEq

/-- `BytecodeCache::CACHE_MAGIC` (`0x5449434B`, ASCII `TICK`). -/
def CACHE_MAGIC : Nat := 0x5449434B

/-- `BytecodeCache::CACHE_VERSION`. -/
def CACHE_VERSION : Nat := 1

/-- Split a character list at the LAST occurrence of `sep`, returning the
parts before and after it; `none` when `sep` does not occur.  This renders
the pointer scans in `BytecodeCache::get_cache_path` that remember the last
`/` (directory/filename split) and the last `.` (extension strip). -/
def splitLast (sep : Char) : List Char → Option (List Char × List Char)
  | [] => none
  | c :: cs =>
      match splitLast sep cs with
      | some (a, b) => some (c :: a, b)
      | none => if c = sep then some ([], cs) else none

/-- `BytecodeCache::get_cache_path`: `<dir>/.tickcache/<basename>.tickc`,
where `dir` is the part before the last `/` (or `.` when there is no slash)
and `basename` is the filename with everything from its last `.` removed. -/
def getCachePath (p : String) : String :=
  let cs := p.toList
  let dirFile : List Char × List Char :=
    match splitLast '/' cs with
    | some (d, f) => (d, f)
    | none => (".".toList, cs)
  let basename : List Char :=
    match splitLast '.' dirFile.2 with
    | some (b, _) => b
    | none => dirFile.2
  String.mk (dirFile.1 ++ "/.tickcache/".toList ++ basename ++ ".tickc".toList)

/-- `BytecodeCache::is_cache_valid` from `cache.h`.  Inputs stand for the
observable I/O results: `srcStat` is `stat` on the source (`none` = failure,
else its (mtime, size)); `cacheHdr` is the attempt to open and read the
header of the cache file at `getCachePath` (`none` = `fopen` failed,
`some none` = header read failed, `some (some h)` = header `h` read). -/
def isCacheValid (srcStat : Option (Nat × Nat)) (cacheHdr : Option (Option CacheHeader)) : Bool :=
  match srcStat with
  | none => false
  | some (sourceMtime, sourceSize) =>
    match cacheHdr with
    | none => false
    | some none => false
    | some (some header) =>
      if header.magic ≠ CACHE_MAGIC then false
      else if header.version ≠ CACHE_VERSION then false
      else if header.sourceMtime ≠ sourceMtime then false
      else if header.sourceSize ≠ sourceSize then false
      else true

/-! ## Lexer (`src/compiler/lexer.cpp`, `src/compiler/token.h`) -/

/-- Token kinds, from `enum class TokenType` in `token.h`. -/
inductive TokenType where
  | IDENTIFIER | INTEGER | FLOAT_LITERAL | DOUBLE_LITERAL | STRING
  | EVENT | SIGNAL | PROCESS | CLASS | NEW | THIS
  | INT | BOOL | FLOAT | DOUBLE | STRING_TYPE
  | WHILE | FOR | IF | ELSE | RETURN | BREAK | TRUE | FALSE
  | AT | LPAREN | RPAREN | LBRACE | RBRACE | LBRACKET | RBRACKET
  | LANGLE | RANGLE | COMMA | SEMICOLON | DOT
  | ASSIGN | PLUS | MINUS | STAR | SLASH | PERCENT
  | EQ | NEQ | LT | GT | LTE | GTE
  | AND | OR | NOT
  | END_OF_FILE | INVALID
  deriving DecidableEq

/-- A token, from `struct Token` in `token.h`. -/
structure Tok where
  ttype : TokenType
  lexeme : String
  line : Nat
  col : Int
  deriving DecidableEq

/-- `Lexer::make_token`: the stored column is the lexer's current column
minus the lexeme length (the C++ computes `_column - length`). -/
def mkTok (t : TokenType) (lexeme : String) (line : Nat) (colAfter : Nat) : Tok :=
  ⟨t, lexeme, line, (colAfter : Int) - (lexeme.length : Int)⟩

/-- Whitespace accepted by `Lexer::skip_whitespace`. -/
def isWsChar (c : Char) : Bool := c = ' ' || c = '\t' || c = '\n' || c = '\r'

/-- `Lexer::skip_whitespace`: drop spaces, tabs, newlines and carriage
returns, maintaining the (line, column) counters as `advance` does. -/
def skipWs : List Char → Nat → Nat → List Char × Nat × Nat
  | c :: cs, line, col =>
      if isWsChar c then
        skipWs cs (if c = '\n' then line + 1 else line) (if c = '\n' then 1 else col + 1)
      else (c :: cs, line, col)
  | [], line, col => ([], line, col)

/-- The loop inside `Lexer::skip_comment`: advance until the next newline
or end of input (the newline itself is not consumed). -/
def dropLineComment : List Char → Nat → List Char × Nat
  | c :: cs, col => if c ≠ '\n' then dropLineComment cs (col + 1) else (c :: cs, col)
  | [], col => ([], col)

/-- `Lexer::skip_comment`: only acts when the input starts with `//`. -/
def skipComment (l : List Char) (col : Nat) : List Char × Nat :=
  match l with
  | '/' :: '/' :: _ => dropLineComment l col
  | _ => (l, col)

/-- Identifier continuation characters, from `Lexer::read_identifier`. -/
def isIdentCont (c : Char) : Bool :=
  ('a' ≤ c && c ≤ 'z') || ('A' ≤ c && c ≤ 'Z') || ('0' ≤ c && c ≤ '9') || c = '_'

/-- Identifier start characters, from the dispatch in `Lexer::tokenize`. -/
def isIdentStart (c : Char) : Bool :=
  ('a' ≤ c && c ≤ 'z') || ('A' ≤ c && c ≤ 'Z') || c = '_'

/-- Digits, from `Lexer::read_number`. -/
def isDigitChar (c : Char) : Bool := '0' ≤ c && c ≤ '9'

/-- The scanning loops of `read_identifier` / `read_number`: take the
longest run satisfying `p`, returning (lexeme, rest). -/
def readWhile (p : Char → Bool) : List Char → List Char × List Char
  | [] => ([], [])
  | c :: cs =>
      if p c then
        let r := readWhile p cs
        (c :: r.1, r.2)
      else ([], c :: cs)

/-- `Lexer::check_keyword`: the exact keyword table of `lexer.cpp`. -/
def checkKeyword (s : String) : TokenType :=
  if s = "event" then .EVENT
  else if s = "signal" then .SIGNAL
  else if s = "process" then .PROCESS
  else if s = "int" then .INT
  else if s = "while" then .WHILE
  else if s = "for" then .FOR
  else if s = "if" then .IF
  else if s = "else" then .ELSE
  else if s = "return" then .RETURN
  else if s = "break" then .BREAK
  else if s = "true" then .TRUE
  else if s = "false" then .FALSE
  else .IDENTIFIER

/-- The body loop of `Lexer::read_string` (after the opening quote):
returns (lexeme characters, rest starting at the closing quote or at end of
input, line, column).  A backslash consumes the following character as
well; the two characters both enter the lexeme.  A backslash at end of
input is consumed without entering the lexeme (the C++ does not count it). -/
def readStrBody : List Char → Nat → Nat → List Char × List Char × Nat × Nat
  | [], line, col => ([], [], line, col)
  | '"' :: cs, line, col => ([], '"' :: cs, line, col)
  | '\\' :: cs, line, col =>
      match cs with
      | [] => ([], [], line, col + 1)
      | d :: ds =>
          let line₁ := if d = '\n' then line + 1 else line
          let col₁ := if d = '\n' then 1 else col + 2
          let r := readStrBody ds line₁ col₁
          ('\\' :: d :: r.1, r.2.1, r.2.2.1, r.2.2.2)
  | c :: cs, line, col =>
      let line₁ := if c = '\n' then line + 1 else line
      let col₁ := if c = '\n' then 1 else col + 1
      let r := readStrBody cs line₁ col₁
      (c :: r.1, r.2.1, r.2.2.1, r.2.2.2)

/-- One iteration of the dispatch loop of `Lexer::tokenize`: skip
whitespace and a line comment, then consume one token (`some tok`) — or,
in the final `else` branch, silently consume one unrecognized byte without
producing any token (`none`).  Returns the token option, the remaining
input, and the updated line/column.  (The C++ `break` when the skips reach
end of input is rendered by returning the empty rest, which ends the loop
at once with the same `END_OF_FILE` position.) -/
def tokStep (l : List Char) (line col : Nat) : Option Tok × List Char × Nat × Nat :=
  let s₁ := skipWs l line col
  let line₁ := s₁.2.1
  let s₂ := skipComment s₁.1 s₁.2.2
  let col₂ := s₂.2
  match s₂.1 with
  | [] => (none, [], line₁, col₂)
  | c :: cs =>
    if isIdentStart c then
      let r := readWhile isIdentCont (c :: cs)
      let lex := String.mk r.1
      (some (mkTok (checkKeyword lex) lex line₁ (col₂ + lex.length)), r.2, line₁, col₂ + lex.length)
    else if isDigitChar c then
      let r := readWhile isDigitChar (c :: cs)
      let lex := String.mk r.1
      (some (mkTok .INTEGER lex line₁ (col₂ + lex.length)), r.2, line₁, col₂ + lex.length)
    else if c = '"' then
      let r := readStrBody cs line₁ (col₂ + 1)
      let lex := String.mk r.1
      let afterClose : List Char × Nat :=
        match r.2.1 with
        | '"' :: cs' => (cs', r.2.2.2 + 1)
        | other => (other, r.2.2.2)
      (some (mkTok .STRING lex r.2.2.1 afterClose.2), afterClose.1, r.2.2.1, afterClose.2)
    else if c = '@' then (some (mkTok .AT "@" line₁ (col₂ + 1)), cs, line₁, col₂ + 1)
    else if c = '(' then (some (mkTok .LPAREN "(" line₁ (col₂ + 1)), cs, line₁, col₂ + 1)
    else if c = ')' then (some (mkTok .RPAREN ")" line₁ (col₂ + 1)), cs, line₁, col₂ + 1)
    else if c = '\x7b' then (some (mkTok .LBRACE "\x7b" line₁ (col₂ + 1)), cs, line₁, col₂ + 1)
    else if c = '\x7d' then (some (mkTok .RBRACE "\x7d" line₁ (col₂ + 1)), cs, line₁, col₂ + 1)
    else if c = '<' then
      match cs with
      | '=' :: cs' => (some (mkTok .LTE "<=" line₁ (col₂ + 2)), cs', line₁, col₂ + 2)
      | _ => (some (mkTok .LANGLE "<" line₁ (col₂ + 1)), cs, line₁, col₂ + 1)
    else if c = '>' then
      match cs with
      | '=' :: cs' => (some (mkTok .GTE ">=" line₁ (col₂ + 2)), cs', line₁, col₂ + 2)
      | _ => (some (mkTok .RANGLE ">" line₁ (col₂ + 1)), cs, line₁, col₂ + 1)
    else if c = ',' then (some (mkTok .COMMA "," line₁ (col₂ + 1)), cs, line₁, col₂ + 1)
    else if c = ';' then (some (mkTok .SEMICOLON ";" line₁ (col₂ + 1)), cs, line₁, col₂ + 1)
    else if c = '.' then (some (mkTok .DOT "." line₁ (col₂ + 1)), cs, line₁, col₂ + 1)
    else if c = '=' then
      match cs with
      | '=' :: cs' => (some (mkTok .EQ "==" line₁ (col₂ + 2)), cs', line₁, col₂ + 2)
      | _ => (some (mkTok .ASSIGN "=" line₁ (col₂ + 1)), cs, line₁, col₂ + 1)
    else if c = '!' then
      match cs with
      | '=' :: cs' => (some (mkTok .NEQ "!=" line₁ (col₂ + 2)), cs', line₁, col₂ + 2)
      | _ => (some (mkTok .NOT "!" line₁ (col₂ + 1)), cs, line₁, col₂ + 1)
    else if c = '+' then (some (mkTok .PLUS "+" line₁ (col₂ + 1)), cs, line₁, col₂ + 1)
    else if c = '-' then (some (mkTok .MINUS "-" line₁ (col₂ + 1)), cs, line₁, col₂ + 1)
    else if c = '*' then (some (mkTok .STAR "*" line₁ (col₂ + 1)), cs, line₁, col₂ + 1)
    else if c = '/' then (some (mkTok .SLASH "/" line₁ (col₂ + 1)), cs, line₁, col₂ + 1)
    else if c = '%' then (some (mkTok .PERCENT "%" line₁ (col₂ + 1)), cs, line₁, col₂ + 1)
    else if c = '&' && (match cs with | '&' :: _ => true | _ => false) then
      (some (mkTok .AND "&&" line₁ (col₂ + 2)), cs.drop 1, line₁, col₂ + 2)
    else if c = '|' && (match cs with | '|' :: _ => true | _ => false) then
      (some (mkTok .OR "||" line₁ (col₂ + 2)), cs.drop 1, line₁, col₂ + 2)
    else
      -- the final `else` of `Lexer::tokenize`: the unrecognized byte is
      -- consumed by `advance()` and NO token is produced for it
      (none, cs, if c = '\n' then line₁ + 1 else line₁, if c = '\n' then 1 else col₂ + 1)

/-- The dispatch loop of `Lexer::tokenize`: iterate `tokStep` until the
input is exhausted, then append the `END_OF_FILE` sentinel.  `fuel` bounds
the number of iterations; `tokenize` supplies `length + 1`, which is
enough because every iteration consumes at least one character. -/
def tokLoop : Nat → List Char → Nat → Nat → List Tok
  | 0, _, _, _ => []
  | fuel + 1, l, line, col =>
    match l with
    | [] => [mkTok .END_OF_FILE "" line col]
    | _ :: _ =>
      match tokStep l line col with
      | (some t, rest, line', col') => t :: tokLoop fuel rest line' col'
      | (none, rest, line', col') => tokLoop fuel rest line' col'

/-- `Lexer::tokenize`, starting at line 1, column 1. -/
def tokenize (src : String) : List Tok :=
  tokLoop (src.toList.length + 1) src.toList 1 1

/-! ## Bytecode and interpreter (`src/runtime/bytecode.h`, `interpreter.cpp`,
`runtime.cpp`)

`OpCode` lists every opcode emitted by `codegen.cpp` and dispatched by
`interpreter.cpp` (the spec's §3 instruction list); the snapshot of
`bytecode.h` predates the array/object opcodes, which both `codegen.cpp`
and the spec use.  The interpreter of the snapshot has no `switch` case
for `NEW_OBJECT` / `GET_FIELD` / `SET_FIELD`, so in the embedding those
fall through like any unmatched case: nothing happens and the program
counter advances. -/

inductive OpCode where
  | LOAD_CONST | LOAD_VAR | STORE_VAR | LOAD_GLOBAL | STORE_GLOBAL
  | ADD | SUB | MUL | DIV | MOD | CONCAT
  | EQ | NEQ | LT | GT | LTE | GTE
  | AND | OR | NOT | NEG
  | JUMP | JUMP_IF_FALSE | JUMP_IF_TRUE
  | CALL | RETURN
  | SIGNAL_EMIT | SIGNAL_RECV | EVENT_EXECUTE
  | POP | DUP
  | BUILD_ARRAY | ARRAY_INDEX | ARRAY_STORE
  | NEW_OBJECT | GET_FIELD | SET_FIELD
  | HALT
  deriving DecidableEq

/-- `struct Instruction` from `bytecode.h`: an opcode and an `int` operand. -/
structure Instruction where
  opcode : OpCode
  operand : Int
  deriving DecidableEq

/-- The default `Instruction()` constructor: `HALT` with operand `0`. -/
instance : Inhabited Instruction := ⟨⟨.HALT, 0⟩⟩

/-- Reading the `int`-typed union members (`int_val` / `string_id`) of a
`Value`.  Both members have type `int`, so the read is well defined when
either is active; reading it while a differently-typed member is active is
undefined behaviour in the C++ and is rendered as `none`. -/
def Value.intField : Value → Option Int
  | .intV n => some n
  | .stringV sid => some sid
  | _ => none

/-- Reading the `bool_val` union member; defined only when `BOOL` is the
active variant (otherwise an undefined inactive-member read). -/
def Value.boolField : Value → Option Bool
  | .boolV b => some b
  | _ => none

/-- The `(a.type == DOUBLE) ? a.double_val : (a.type == FLOAT) ? a.float_val
: a.int_val` conversion of the arithmetic cases, defined on the numeric
variants. -/
def toDoubleVal : Value → Option Rat
  | .doubleV q => some q
  | .floatV q => some q
  | .intV n => some (n : Rat)
  | _ => none

/-- The `(a.type == FLOAT) ? a.float_val : a.int_val` conversion of the
float arithmetic branches. -/
def toFloatVal : Value → Option Rat
  | .floatV q => some q
  | .intV n => some (n : Rat)
  | _ => none

/-- Tag test `type == Value::DOUBLE`. -/
def Value.isDouble : Value → Bool
  | .doubleV _ => true
  | _ => false

/-- Tag test `type == Value::FLOAT`. -/
def Value.isFloat : Value → Bool
  | .floatV _ => true
  | _ => false

/-- The shared numeric-promotion shape of the interpreter's binary
arithmetic cases (both dispatch loops contain the identical code): if
either operand is `DOUBLE`, compute in double; else if either is `FLOAT`,
in float; else on the `int` members.  `iop` may refuse (integer division
by zero is undefined). -/
def numBin (a b : Value) (iop : Int → Int → Option Int) (qop : Rat → Rat → Rat) : Option Value :=
  if a.isDouble || b.isDouble then
    match toDoubleVal a, toDoubleVal b with
    | some x, some y => some (.doubleV (qop x y))
    | _, _ => none
  else if a.isFloat || b.isFloat then
    match toFloatVal a, toFloatVal b with
    | some x, some y => some (.floatV (qop x y))
    | _, _ => none
  else
    match a.intField, b.intField with
    | some x, some y => (iop x y).map .intV
    | _, _ => none

/-- The shared shape of the comparison cases (`EQ`..`GTE`): same promotion
ladder, pushing a `BOOL`. -/
def cmpBin (a b : Value) (iop : Int → Int → Bool) (qop : Rat → Rat → Bool) : Option Value :=
  if a.isDouble || b.isDouble then
    match toDoubleVal a, toDoubleVal b with
    | some x, some y => some (.boolV (qop x y))
    | _, _ => none
  else if a.isFloat || b.isFloat then
    match toFloatVal a, toFloatVal b with
    | some x, some y => some (.boolV (qop x y))
    | _, _ => none
  else
    match a.intField, b.intField with
    | some x, some y => some (.boolV (iop x y))
    | _, _ => none

/-- The `ADD` case: two `STRING` operands concatenate through the string
pool (interning the result); otherwise numeric promotion.  Returns the
pushed value and the possibly extended pool. -/
def valAdd (pool : List String) (a b : Value) : Option (Value × List String) :=
  match a, b with
  | .stringV sa, .stringV sb =>
      let r := poolAdd pool (poolGet pool sa ++ poolGet pool sb)
      some (.stringV (r.1 : Int), r.2)
  | _, _ => (numBin a b (fun x y => some (x + y)) (· + ·)).map (fun v => (v, pool))

/-- `Interpreter::pop`: defensive on underflow, producing `Value(0)`. -/
def stackPop : List Value → Value × List Value
  | [] => (Value.intV 0, [])
  | v :: vs => (v, vs)

/-- `Interpreter::peek`: defensive on underflow, producing `Value(0)`. -/
def stackPeek : List Value → Value
  | [] => Value.intV 0
  | v :: _ => v

/-- Pop `n` values (in pop order), as the argument-collection loop of the
`CALL` case does. -/
def popN : Nat → List Value → List Value × List Value
  | 0, st => ([], st)
  | n + 1, st =>
      let p := stackPop st
      let r := popN n p.2
      (p.1 :: r.1, r.2)

/-- Bounds-checked index conversion for the unchecked `DynamicArray`
accesses (`_constants[op]`, `_locals[op]`, array elements): an
out-of-range C++ access is undefined behaviour, rendered as `none`. -/
def idxNat (i : Int) (len : Nat) : Option Nat :=
  if 0 ≤ i ∧ i < (len : Int) then some i.toNat else none

/-- Conversion of an `int` operand to the `size_t` program counter
(`pc = inst.operand`): modular 64-bit unsigned conversion. -/
def sizeT (op : Int) : Nat := (op % (2 ^ 64)).toNat

/-- Association-list lookup standing for `HashMap::find` (the runtime's
maps, keyed here by string contents). -/
def alookup {α : Type} (m : List (String × α)) (k : String) : Option α :=
  (m.find? (fun p => p.1 = k)).map Prod.snd

/-- Association-list insert standing for `HashMap::insert`: replace the
value when the key is present, else append. -/
def ainsert {α : Type} (m : List (String × α)) (k : String) (v : α) : List (String × α) :=
  match m with
  | [] => [(k, v)]
  | (k', v') :: rest => if k' = k then (k, v) :: rest else (k', v') :: ainsert rest k v

/-- `ProcessContext` from `runtime.h` as `main.cpp` builds it: the process
bytecode and its constant pool (the runtime / string-pool handles are the
threaded runtime state below). -/
structure Ctx where
  bytecode : List Instruction
  constants : List Value
  deriving DecidableEq

/-- The mutable runtime state of `class Runtime` (plus the heap of array
objects allocated by `BUILD_ARRAY`): string pool, constant pool, global
map, built-in registry, user-function registry, signal registry, and the
event scheduler's process registry. -/
structure RT where
  pool : List String
  constants : List Value
  globals : List (String × Value)
  builtins : List (String × (List Value → Value))
  userFuncs : List (String × List Instruction)
  signals : List (String × SQ)
  registry : List (String × List Ctx)
  heap : List (List Value)

/-- `Runtime::get_global`: a missing name yields `Value()` (`NONE`). -/
def RT.getGlobal (rt : RT) (name : String) : Value :=
  (alookup rt.globals name).getD Value.noneV

/-- `Runtime::set_global`. -/
def RT.setGlobal (rt : RT) (name : String) (v : Value) : RT :=
  { rt with globals := ainsert rt.globals name v }

/-- `Runtime::get_signal`: `nullptr` (here `none`) when the name is not in
the signal registry. -/
def RT.getSignal (rt : RT) (name : String) : Option SQ :=
  alookup rt.signals name

/-- Writing back the state of the named signal queue. -/
def RT.setSignal (rt : RT) (name : String) (q : SQ) : RT :=
  { rt with signals := ainsert rt.signals name q }

/-- `Runtime::register_signal`: create the queue only when absent. -/
def RT.registerSignal (rt : RT) (name : String) : RT :=
  match alookup rt.signals name with
  | some _ => rt
  | none => { rt with signals := ainsert rt.signals name SQ.init }

/-- `EventScheduler::register_process`: append the process context to the
(possibly fresh) list for the event name. -/
def registerProcess (reg : List (String × List Ctx)) (evt : String) (ctx : Ctx) :
    List (String × List Ctx) :=
  match alookup reg evt with
  | none => ainsert reg evt [ctx]
  | some l => ainsert reg evt (l ++ [ctx])

/-- The locals array of `Interpreter::execute_function`: argument `i` into
slot `i` (up to 256), remaining slots zero-initialized.  With no arguments
this equals the 256 zero slots of `Interpreter::execute`. -/
def localsInit (args : List Value) : List Value :=
  args.take 256 ++ List.replicate (256 - args.length) (Value.intV 0)

/-- Requests of the interpreter/runtime machine: the `Interpreter::execute`
loop, the `Interpreter::execute_function` loop, `Runtime::call_function`,
and the sequential fan-out of `EventScheduler::execute_event` followed by
`wait_completion` (the concurrent interleaving of processes is outside
this sequential embedding; processes are run to completion in registration
order, which realizes the execute barrier). -/
inductive VMReq where
  | exec (code : List Instruction) (consts : List Value)
      (stack locals : List Value) (pc : Nat)
  | execFn (code : List Instruction) (consts : List Value)
      (stack locals : List Value) (pc : Nat)
  | call (name : String) (args : List Value)
  | procs (ctxs : List Ctx)

/-- Results: a value plus the threaded runtime state (for the loops and
`call_function`), or the state alone (for event fan-out). -/
inductive VMRes where
  | val (v : Value) (rt : RT)
  | rtOnly (rt : RT)

/-- The interpreter/runtime machine.  The `.exec` case is the dispatch
loop of `Interpreter::execute` (lines 10-436 of `interpreter.cpp`); the
`.execFn` case is the dispatch loop of `Interpreter::execute_function`
(lines 438-841), which differs from `.exec` exactly where the C++ differs:
it has no `CONCAT` case (an unmatched `switch` value falls through and the
program counter advances) and its conditional jumps read only the
`bool_val` union member.  The `.call` case is `Runtime::call_function`;
the `.procs` case is the sequential rendering of
`EventScheduler::execute_event` + `wait_completion` (each registered
context runs `Interpreter::execute` to completion, in registration
order).  `fuel` bounds the number of machine steps; exhaustion is `none`
(models nontermination, never reached in the concrete runs below); `none`
also marks undefined behaviour and a `recv` blocked forever. -/
def vmRun : Nat → VMReq → RT → Option VMRes
  | 0, _, _ => none
  | fuel + 1, .exec code consts stack locals pc, rt =>
    if pc < code.length then
      let inst := code.getD pc default
      match inst.opcode with
      | .LOAD_CONST =>
        match idxNat inst.operand consts.length with
        | some i => vmRun fuel (.exec code consts (consts.getD i .noneV :: stack) locals (pc + 1)) rt
        | none => none
      | .LOAD_VAR =>
        match idxNat inst.operand locals.length with
        | some i => vmRun fuel (.exec code consts (locals.getD i .noneV :: stack) locals (pc + 1)) rt
        | none => none
      | .STORE_VAR =>
        let p := stackPop stack
        match idxNat inst.operand locals.length with
        | some i => vmRun fuel (.exec code consts p.2 (locals.set i p.1) (pc + 1)) rt
        | none => none
      | .LOAD_GLOBAL =>
        let name := poolGet rt.pool inst.operand
        vmRun fuel (.exec code consts (rt.getGlobal name :: stack) locals (pc + 1)) rt
      | .STORE_GLOBAL =>
        let name := poolGet rt.pool inst.operand
        let p := stackPop stack
        vmRun fuel (.exec code consts p.2 locals (pc + 1)) (rt.setGlobal name p.1)
      | .ADD =>
        let pb := stackPop stack
        let pa := stackPop pb.2
        match valAdd rt.pool pa.1 pb.1 with
        | some (v, pool') =>
            vmRun fuel (.exec code consts (v :: pa.2) locals (pc + 1)) { rt with pool := pool' }
        | none => none
      | .SUB =>
        let pb := stackPop stack
        let pa := stackPop pb.2
        match numBin pa.1 pb.1 (fun x y => some (x - y)) (· - ·) with
        | some v => vmRun fuel (.exec code consts (v :: pa.2) locals (pc + 1)) rt
        | none => none
      | .MUL =>
        let pb := stackPop stack
        let pa := stackPop pb.2
        match numBin pa.1 pb.1 (fun x y => some (x * y)) (· * ·) with
        | some v => vmRun fuel (.exec code consts (v :: pa.2) locals (pc + 1)) rt
        | none => none
      | .DIV =>
        let pb := stackPop stack
        let pa := stackPop pb.2
        match numBin pa.1 pb.1 (fun x y => if y = 0 then none else some (x.tdiv y)) (· / ·) with
        | some v => vmRun fuel (.exec code consts (v :: pa.2) locals (pc + 1)) rt
        | none => none
      | .MOD =>
        let pb := stackPop stack
        let pa := stackPop pb.2
        match pa.1.intField, pb.1.intField with
        | some x, some y =>
            if y = 0 then none
            else vmRun fuel (.exec code consts (.intV (x.tmod y) :: pa.2) locals (pc + 1)) rt
        | _, _ => none
      | .CONCAT =>
        let pb := stackPop stack
        let pa := stackPop pb.2
        match pa.1.intField, pb.1.intField with
        | some sa, some sb =>
            let r := poolAdd rt.pool (poolGet rt.pool sa ++ poolGet rt.pool sb)
            vmRun fuel (.exec code consts (.stringV (r.1 : Int) :: pa.2) locals (pc + 1))
              { rt with pool := r.2 }
        | _, _ => none
      | .EQ =>
        let pb := stackPop stack
        let pa := stackPop pb.2
        match cmpBin pa.1 pb.1 (fun x y => x == y) (fun x y => x == y) with
        | some v => vmRun fuel (.exec code consts (v :: pa.2) locals (pc + 1)) rt
        | none => none
      | .NEQ =>
        let pb := stackPop stack
        let pa := stackPop pb.2
        match cmpBin pa.1 pb.1 (fun x y => x != y) (fun x y => x != y) with
        | some v => vmRun fuel (.exec code consts (v :: pa.2) locals (pc + 1)) rt
        | none => none
      | .LT =>
        let pb := stackPop stack
        let pa := stackPop pb.2
        match cmpBin pa.1 pb.1 (fun x y => decide (x < y)) (fun x y => decide (x < y)) with
        | some v => vmRun fuel (.exec code consts (v :: pa.2) locals (pc + 1)) rt
        | none => none
      | .GT =>
        let pb := stackPop stack
        let pa := stackPop pb.2
        match cmpBin pa.1 pb.1 (fun x y => decide (y < x)) (fun x y => decide (y < x)) with
        | some v => vmRun fuel (.exec code consts (v :: pa.2) locals (pc + 1)) rt
        | none => none
      | .LTE =>
        let pb := stackPop stack
        let pa := stackPop pb.2
        match cmpBin pa.1 pb.1 (fun x y => decide (x ≤ y)) (fun x y => decide (x ≤ y)) with
        | some v => vmRun fuel (.exec code consts (v :: pa.2) locals (pc + 1)) rt
        | none => none
      | .GTE =>
        let pb := stackPop stack
        let pa := stackPop pb.2
        match cmpBin pa.1 pb.1 (fun x y => decide (y ≤ x)) (fun x y => decide (y ≤ x)) with
        | some v => vmRun fuel (.exec code consts (v :: pa.2) locals (pc + 1)) rt
        | none => none
      | .AND =>
        let pb := stackPop stack
        let pa := stackPop pb.2
        match pa.1.boolField, pb.1.boolField with
        | some x, some y => vmRun fuel (.exec code consts (.boolV (x && y) :: pa.2) locals (pc + 1)) rt
        | _, _ => none
      | .OR =>
        let pb := stackPop stack
        let pa := stackPop pb.2
        match pa.1.boolField, pb.1.boolField with
        | some x, some y => vmRun fuel (.exec code consts (.boolV (x || y) :: pa.2) locals (pc + 1)) rt
        | _, _ => none
      | .NOT =>
        let p := stackPop stack
        match p.1.boolField with
        | some x => vmRun fuel (.exec code consts (.boolV (!x) :: p.2) locals (pc + 1)) rt
        | none => none
      | .NEG =>
        let p := stackPop stack
        match p.1 with
        | .doubleV q => vmRun fuel (.exec code consts (.doubleV (-q) :: p.2) locals (pc + 1)) rt
        | .floatV q => vmRun fuel (.exec code consts (.floatV (-q) :: p.2) locals (pc + 1)) rt
        | a =>
          match a.intField with
          | some n => vmRun fuel (.exec code consts (.intV (-n) :: p.2) locals (pc + 1)) rt
          | none => none
      | .JUMP => vmRun fuel (.exec code consts stack locals (sizeT inst.operand)) rt
      | .JUMP_IF_FALSE =>
        let p := stackPop stack
        match p.1 with
        | .boolV b =>
            if !b then vmRun fuel (.exec code consts p.2 locals (sizeT inst.operand)) rt
            else vmRun fuel (.exec code consts p.2 locals (pc + 1)) rt
        | .intV n =>
            if n = 0 then vmRun fuel (.exec code consts p.2 locals (sizeT inst.operand)) rt
            else vmRun fuel (.exec code consts p.2 locals (pc + 1)) rt
        | _ => vmRun fuel (.exec code consts p.2 locals (pc + 1)) rt
      | .JUMP_IF_TRUE =>
        let p := stackPop stack
        match p.1 with
        | .boolV b =>
            if b then vmRun fuel (.exec code consts p.2 locals (sizeT inst.operand)) rt
            else vmRun fuel (.exec code consts p.2 locals (pc + 1)) rt
        | .intV n =>
            if n ≠ 0 then vmRun fuel (.exec code consts p.2 locals (sizeT inst.operand)) rt
            else vmRun fuel (.exec code consts p.2 locals (pc + 1)) rt
        | _ => vmRun fuel (.exec code consts p.2 locals (pc + 1)) rt
      | .CALL =>
        let pcnt := stackPop stack
        match pcnt.1.intField with
        | some argc =>
          let pargs := popN argc.toNat pcnt.2
          let name := poolGet rt.pool inst.operand
          match vmRun fuel (.call name pargs.1.reverse) rt with
          | some (.val res rt') => vmRun fuel (.exec code consts (res :: pargs.2) locals (pc + 1)) rt'
          | _ => none
        | none => none
      | .RETURN => some (.val (stackPop stack).1 rt)
      | .SIGNAL_EMIT =>
        let name := poolGet rt.pool inst.operand
        match rt.getSignal name with
        | some q =>
            let p := stackPop stack
            vmRun fuel (.exec code consts p.2 locals (pc + 1)) (rt.setSignal name (q.emit p.1))
        | none => vmRun fuel (.exec code consts stack locals (pc + 1)) rt
      | .SIGNAL_RECV =>
        let name := poolGet rt.pool inst.operand
        match rt.getSignal name with
        | some q =>
            match q.recv with
            | some (v, q') => vmRun fuel (.exec code consts (v :: stack) locals (pc + 1)) (rt.setSignal name q')
            | none => none
        | none => vmRun fuel (.exec code consts (Value.intV 0 :: stack) locals (pc + 1)) rt
      | .EVENT_EXECUTE =>
        let name := poolGet rt.pool inst.operand
        match alookup rt.registry name with
        | none => vmRun fuel (.exec code consts stack locals (pc + 1)) rt
        | some ctxs =>
          match vmRun fuel (.procs ctxs) rt with
          | some (.rtOnly rt') => vmRun fuel (.exec code consts stack locals (pc + 1)) rt'
          | _ => none
      | .POP =>
        let p := stackPop stack
        vmRun fuel (.exec code consts p.2 locals (pc + 1)) rt
      | .DUP => vmRun fuel (.exec code consts (stackPeek stack :: stack) locals (pc + 1)) rt
      | .BUILD_ARRAY =>
        let p := popN inst.operand.toNat stack
        vmRun fuel (.exec code consts (.arrayV rt.heap.length :: p.2) locals (pc + 1))
          { rt with heap := rt.heap ++ [p.1.reverse] }
      | .ARRAY_INDEX =>
        let pidx := stackPop stack
        let parr := stackPop pidx.2
        match parr.1 with
        | .arrayV h =>
          match rt.heap[h]? with
          | some arr =>
            match pidx.1.intField with
            | some i =>
              match idxNat i arr.length with
              | some j => vmRun fuel (.exec code consts (arr.getD j .noneV :: parr.2) locals (pc + 1)) rt
              | none => none
            | none => none
          | none => none
        | _ => none
      | .ARRAY_STORE =>
        let pv := stackPop stack
        let pidx := stackPop pv.2
        let parr := stackPop pidx.2
        match parr.1 with
        | .arrayV h =>
          match rt.heap[h]? with
          | some arr =>
            match pidx.1.intField with
            | some i =>
              match idxNat i arr.length with
              | some j =>
                vmRun fuel (.exec code consts parr.2 locals (pc + 1))
                  { rt with heap := rt.heap.set h (arr.set j pv.1) }
              | none => none
            | none => none
          | none => none
        | _ => none
      | .NEW_OBJECT => vmRun fuel (.exec code consts stack locals (pc + 1)) rt
      | .GET_FIELD => vmRun fuel (.exec code consts stack locals (pc + 1)) rt
      | .SET_FIELD => vmRun fuel (.exec code consts stack locals (pc + 1)) rt
      | .HALT => some (.val (Value.intV 0) rt)
    else some (.val (Value.intV 0) rt)
  | fuel + 1, .execFn code consts stack locals pc, rt =>
    if pc < code.length then
      let inst := code.getD pc default
      match inst.opcode with
      | .LOAD_CONST =>
        match idxNat inst.operand consts.length with
        | some i => vmRun fuel (.execFn code consts (consts.getD i .noneV :: stack) locals (pc + 1)) rt
        | none => none
      | .LOAD_VAR =>
        match idxNat inst.operand locals.length with
        | some i => vmRun fuel (.execFn code consts (locals.getD i .noneV :: stack) locals (pc + 1)) rt
        | none => none
      | .STORE_VAR =>
        let p := stackPop stack
        match idxNat inst.operand locals.length with
        | some i => vmRun fuel (.execFn code consts p.2 (locals.set i p.1) (pc + 1)) rt
        | none => none
      | .LOAD_GLOBAL =>
        let name := poolGet rt.pool inst.operand
        vmRun fuel (.execFn code consts (rt.getGlobal name :: stack) locals (pc + 1)) rt
      | .STORE_GLOBAL =>
        let name := poolGet rt.pool inst.operand
        let p := stackPop stack
        vmRun fuel (.execFn code consts p.2 locals (pc + 1)) (rt.setGlobal name p.1)
      | .ADD =>
        let pb := stackPop stack
        let pa := stackPop pb.2
        match valAdd rt.pool pa.1 pb.1 with
        | some (v, pool') =>
            vmRun fuel (.execFn code consts (v :: pa.2) locals (pc + 1)) { rt with pool := pool' }
        | none => none
      | .SUB =>
        let pb := stackPop stack
        let pa := stackPop pb.2
        match numBin pa.1 pb.1 (fun x y => some (x - y)) (· - ·) with
        | some v => vmRun fuel (.execFn code consts (v :: pa.2) locals (pc + 1)) rt
        | none => none
      | .MUL =>
        let pb := stackPop stack
        let pa := stackPop pb.2
        match numBin pa.1 pb.1 (fun x y => some (x * y)) (· * ·) with
        | some v => vmRun fuel (.execFn code consts (v :: pa.2) locals (pc + 1)) rt
        | none => none
      | .DIV =>
        let pb := stackPop stack
        let pa := stackPop pb.2
        match numBin pa.1 pb.1 (fun x y => if y = 0 then none else some (x.tdiv y)) (· / ·) with
        | some v => vmRun fuel (.execFn code consts (v :: pa.2) locals (pc + 1)) rt
        | none => none
      | .MOD =>
        let pb := stackPop stack
        let pa := stackPop pb.2
        match pa.1.intField, pb.1.intField with
        | some x, some y =>
            if y = 0 then none
            else vmRun fuel (.execFn code consts (.intV (x.tmod y) :: pa.2) locals (pc + 1)) rt
        | _, _ => none
      | .CONCAT =>
        -- `execute_function` has NO case for CONCAT: the switch falls
        -- through, nothing happens, and the program counter advances
        vmRun fuel (.execFn code consts stack locals (pc + 1)) rt
      | .EQ =>
        let pb := stackPop stack
        let pa := stackPop pb.2
        match cmpBin pa.1 pb.1 (fun x y => x == y) (fun x y => x == y) with
        | some v => vmRun fuel (.execFn code consts (v :: pa.2) locals (pc + 1)) rt
        | none => none
      | .NEQ =>
        let pb := stackPop stack
        let pa := stackPop pb.2
        match cmpBin pa.1 pb.1 (fun x y => x != y) (fun x y => x != y) with
        | some v => vmRun fuel (.execFn code consts (v :: pa.2) locals (pc + 1)) rt
        | none => none
      | .LT =>
        let pb := stackPop stack
        let pa := stackPop pb.2
        match cmpBin pa.1 pb.1 (fun x y => decide (x < y)) (fun x y => decide (x < y)) with
        | some v => vmRun fuel (.execFn code consts (v :: pa.2) locals (pc + 1)) rt
        | none => none
      | .GT =>
        let pb := stackPop stack
        let pa := stackPop pb.2
        match cmpBin pa.1 pb.1 (fun x y => decide (y < x)) (fun x y => decide (y < x)) with
        | some v => vmRun fuel (.execFn code consts (v :: pa.2) locals (pc + 1)) rt
        | none => none
      | .LTE =>
        let pb := stackPop stack
        let pa := stackPop pb.2
        match cmpBin pa.1 pb.1 (fun x y => decide (x ≤ y)) (fun x y => decide (x ≤ y)) with
        | some v => vmRun fuel (.execFn code consts (v :: pa.2) locals (pc + 1)) rt
        | none => none
      | .GTE =>
        let pb := stackPop stack
        let pa := stackPop pb.2
        match cmpBin pa.1 pb.1 (fun x y => decide (y ≤ x)) (fun x y => decide (y ≤ x)) with
        | some v => vmRun fuel (.execFn code consts (v :: pa.2) locals (pc + 1)) rt
        | none => none
      | .AND =>
        let pb := stackPop stack
        let pa := stackPop pb.2
        match pa.1.boolField, pb.1.boolField with
        | some x, some y => vmRun fuel (.execFn code consts (.boolV (x && y) :: pa.2) locals (pc + 1)) rt
        | _, _ => none
      | .OR =>
        let pb := stackPop stack
        let pa := stackPop pb.2
        match pa.1.boolField, pb.1.boolField with
        | some x, some y => vmRun fuel (.execFn code consts (.boolV (x || y) :: pa.2) locals (pc + 1)) rt
        | _, _ => none
      | .NOT =>
        let p := stackPop stack
        match p.1.boolField with
        | some x => vmRun fuel (.execFn code consts (.boolV (!x) :: p.2) locals (pc + 1)) rt
        | none => none
      | .NEG =>
        let p := stackPop stack
        match p.1 with
        | .doubleV q => vmRun fuel (.execFn code consts (.doubleV (-q) :: p.2) locals (pc + 1)) rt
        | .floatV q => vmRun fuel (.execFn code consts (.floatV (-q) :: p.2) locals (pc + 1)) rt
        | a =>
          match a.intField with
          | some n => vmRun fuel (.execFn code consts (.intV (-n) :: p.2) locals (pc + 1)) rt
          | none => none
      | .JUMP => vmRun fuel (.execFn code consts stack locals (sizeT inst.operand)) rt
      | .JUMP_IF_FALSE =>
        -- `execute_function` branches on `!cond.bool_val` alone, with no
        -- test of the value's type (unlike `execute`)
        let p := stackPop stack
        match p.1.boolField with
        | some b =>
            if !b then vmRun fuel (.execFn code consts p.2 locals (sizeT inst.operand)) rt
            else vmRun fuel (.execFn code consts p.2 locals (pc + 1)) rt
        | none => none
      | .JUMP_IF_TRUE =>
        let p := stackPop stack
        match p.1.boolField with
        | some b =>
            if b then vmRun fuel (.execFn code consts p.2 locals (sizeT inst.operand)) rt
            else vmRun fuel (.execFn code consts p.2 locals (pc + 1)) rt
        | none => none
      | .CALL =>
        let pcnt := stackPop stack
        match pcnt.1.intField with
        | some argc =>
          let pargs := popN argc.toNat pcnt.2
          let name := poolGet rt.pool inst.operand
          match vmRun fuel (.call name pargs.1.reverse) rt with
          | some (.val res rt') => vmRun fuel (.execFn code consts (res :: pargs.2) locals (pc + 1)) rt'
          | _ => none
        | none => none
      | .RETURN => some (.val (stackPop stack).1 rt)
      | .SIGNAL_EMIT =>
        let name := poolGet rt.pool inst.operand
        match rt.getSignal name with
        | some q =>
            let p := stackPop stack
            vmRun fuel (.execFn code consts p.2 locals (pc + 1)) (rt.setSignal name (q.emit p.1))
        | none => vmRun fuel (.execFn code consts stack locals (pc + 1)) rt
      | .SIGNAL_RECV =>
        let name := poolGet rt.pool inst.operand
        match rt.getSignal name with
        | some q =>
            match q.recv with
            | some (v, q') => vmRun fuel (.execFn code consts (v :: stack) locals (pc + 1)) (rt.setSignal name q')
            | none => none
        | none => vmRun fuel (.execFn code consts (Value.intV 0 :: stack) locals (pc + 1)) rt
      | .EVENT_EXECUTE =>
        let name := poolGet rt.pool inst.operand
        match alookup rt.registry name with
        | none => vmRun fuel (.execFn code consts stack locals (pc + 1)) rt
        | some ctxs =>
          match vmRun fuel (.procs ctxs) rt with
          | some (.rtOnly rt') => vmRun fuel (.execFn code consts stack locals (pc + 1)) rt'
          | _ => none
      | .POP =>
        let p := stackPop stack
        vmRun fuel (.execFn code consts p.2 locals (pc + 1)) rt
      | .DUP => vmRun fuel (.execFn code consts (stackPeek stack :: stack) locals (pc + 1)) rt
      | .BUILD_ARRAY =>
        let p := popN inst.operand.toNat stack
        vmRun fuel (.execFn code consts (.arrayV rt.heap.length :: p.2) locals (pc + 1))
          { rt with heap := rt.heap ++ [p.1.reverse] }
      | .ARRAY_INDEX =>
        let pidx := stackPop stack
        let parr := stackPop pidx.2
        match parr.1 with
        | .arrayV h =>
          match rt.heap[h]? with
          | some arr =>
            match pidx.1.intField with
            | some i =>
              match idxNat i arr.length with
              | some j => vmRun fuel (.execFn code consts (arr.getD j .noneV :: parr.2) locals (pc + 1)) rt
              | none => none
            | none => none
          | none => none
        | _ => none
      | .ARRAY_STORE =>
        let pv := stackPop stack
        let pidx := stackPop pv.2
        let parr := stackPop pidx.2
        match parr.1 with
        | .arrayV h =>
          match rt.heap[h]? with
          | some arr =>
            match pidx.1.intField with
            | some i =>
              match idxNat i arr.length with
              | some j =>
                vmRun fuel (.execFn code consts parr.2 locals (pc + 1))
                  { rt with heap := rt.heap.set h (arr.set j pv.1) }
              | none => none
            | none => none
          | none => none
        | _ => none
      | .NEW_OBJECT => vmRun fuel (.execFn code consts stack locals (pc + 1)) rt
      | .GET_FIELD => vmRun fuel (.execFn code consts stack locals (pc + 1)) rt
      | .SET_FIELD => vmRun fuel (.execFn code consts stack locals (pc + 1)) rt
      | .HALT => some (.val (Value.intV 0) rt)
    else some (.val (Value.intV 0) rt)
  | fuel + 1, .call name args, rt =>
    match alookup rt.builtins name with
    | some f => some (.val (f args) rt)
    | none =>
      match alookup rt.userFuncs name with
      | some ucode => vmRun fuel (.execFn ucode rt.constants [] (localsInit args) 0) rt
      | none => some (.val Value.noneV rt)
  | _ + 1, .procs [], rt => some (.rtOnly rt)
  | fuel + 1, .procs (c :: cs), rt =>
    match vmRun fuel (.exec c.bytecode c.constants [] (localsInit []) 0) rt with
    | some (.val _ rt') => vmRun fuel (.procs cs) rt'
    | _ => none

/-- `Interpreter::execute`: fresh empty stack, 256 zero-initialized local
slots, program counter 0. -/
def interpExecute (fuel : Nat) (code : List Instruction) (consts : List Value) (rt : RT) :
    Option (Value × RT) :=
  match vmRun fuel (.exec code consts [] (localsInit []) 0) rt with
  | some (.val v rt') => some (v, rt')
  | _ => none

/-- `Interpreter::execute_function`: arguments pre-loaded into the local
slots, empty stack, program counter 0. -/
def interpExecuteFunction (fuel : Nat) (code : List Instruction) (consts : List Value)
    (args : List Value) (rt : RT) : Option (Value × RT) :=
  match vmRun fuel (.execFn code consts [] (localsInit args) 0) rt with
  | some (.val v rt') => some (v, rt')
  | _ => none

/-- Projection to the produced value, discarding the runtime state. -/
def resultValue (r : Option (Value × RT)) : Option Value := r.map Prod.fst

/-! ## AST and bytecode compiler (`src/compiler/ast.h`, `src/runtime/codegen.cpp`) -/

/-- Expression nodes, from `ast.h`.  Constructor argument order follows the
C++ node constructors. -/
inductive Expr where
  | intLit (v : Int)
  | floatLit (q : Rat)
  | doubleLit (q : Rat)
  | boolLit (b : Bool)
  | strLit (s : String)
  | identE (name : String)
  | binE (left : Expr) (op : String) (right : Expr)
  | unE (op : String) (operand : Expr)
  | callE (callee : Expr) (args : List Expr)
  | memberE (obj : Expr) (member : String)
  | indexE (arr : Expr) (idx : Expr)
  | arrayE (elems : List Expr)
  | newE (className : String) (args : List Expr)
  | thisE

/-- Statement nodes, from `ast.h`.  `forS` and `breakS` exist in the AST
but have no case in `CodeGenerator::generate_statement` (the `default:
break;` emits nothing for them). -/
inductive Stmt where
  | varDecl (typeName name : String) (init : Option Expr)
  | exprS (e : Expr)
  | ifS (cond : Expr) (thenB : Stmt) (elseB : Option Stmt)
  | whileS (cond : Expr) (body : Stmt)
  | forS
  | returnS (v : Option Expr)
  | breakS
  | blockS (stmts : List Stmt)

/-- A `VarDecl` used as a class field (type, name, optional initializer). -/
structure FieldDecl where
  typeName : String
  name : String
  init : Option Expr

/-- `struct Parameter` from `ast.h`. -/
structure Param where
  typeName : String
  name : String

/-- `struct FunctionDecl` from `ast.h`; the body block is its statement
list. -/
structure FunctionDecl where
  returnType : String
  name : String
  params : List Param
  body : List Stmt

/-- `struct ClassDecl` from `ast.h`. -/
structure ClassDecl where
  name : String
  fields : List FieldDecl
  methods : List FunctionDecl

/-- `struct ProcessDecl` from `ast.h`. -/
structure ProcessDecl where
  eventName : String
  name : String
  body : List Stmt

/-- The mutable state of `class CodeGenerator` during generation: the
current instruction stream, the constant pool, the string pool, the local
slot map with its next free index, and the class-declaration map.  Note
that the C++ never clears `_local_vars` between functions; the embedding
preserves that. -/
structure CG where
  code : List Instruction
  constants : List Value
  pool : List String
  locals : List (String × Int)
  nextLocal : Int
  classes : List (String × ClassDecl)

/-- `CodeGenerator::emit`: append one instruction to the current stream. -/
def CG.emit (cg : CG) (op : OpCode) (opr : Int) : CG :=
  { cg with code := cg.code ++ [⟨op, opr⟩] }

/-- `CodeGenerator::add_constant`: append and return the new index. -/
def CG.addConst (cg : CG) (v : Value) : Int × CG :=
  ((cg.constants.length : Int), { cg with constants := cg.constants ++ [v] })

/-- Forward patching (`(*_current_code)[idx].operand = target`): overwrite
the operand of the instruction at `idx` with the absolute target. -/
def CG.patch (cg : CG) (idx : Nat) (target : Nat) : CG :=
  { cg with code := cg.code.set idx { cg.code.getD idx default with operand := (target : Int) } }

/-- Requests of the code generator: one expression, an argument/element
list, one statement, a statement list (`generate_block`), or the
field-initializer loop of `generate_new_expr`. -/
inductive GenReq where
  | expr (e : Expr)
  | exprList (es : List Expr)
  | stmt (s : Stmt)
  | stmtList (ss : List Stmt)
  | fieldInits (fs : List FieldDecl)

/-- The recurring idiom `emit(LOAD_CONST, add_constant(v))`. -/
def emitConstLoad (cg : CG) (v : Value) : CG :=
  (cg.addConst v).2.emit .LOAD_CONST (cg.addConst v).1

/-- The recurring idiom `int idx = _string_pool.add(name); emit(op, idx)`. -/
def emitWithName (cg : CG) (op : OpCode) (name : String) : CG :=
  CG.emit { cg with pool := (poolAdd cg.pool name).2 } op ((poolAdd cg.pool name).1 : Int)

/-- The operator dispatch chain of `CodeGenerator::generate_binary_expr`:
emit the opcode matching the operator string (an unknown operator emits
nothing). -/
def binOp (op : String) : Option OpCode :=
  if op = "+" then some .ADD
  else if op = "-" then some .SUB
  else if op = "*" then some .MUL
  else if op = "/" then some .DIV
  else if op = "%" then some .MOD
  else if op = "==" then some .EQ
  else if op = "!=" then some .NEQ
  else if op = "<" then some .LT
  else if op = ">" then some .GT
  else if op = "<=" then some .LTE
  else if op = ">=" then some .GTE
  else if op = "&&" then some .AND
  else if op = "||" then some .OR
  else none

def binOpEmit (cg : CG) (op : String) : CG :=
  match binOp op with
  | some oc => cg.emit oc 0
  | none => cg

/-- The operator dispatch of `CodeGenerator::generate_unary_expr`. -/
def unOp (op : String) : Option OpCode :=
  if op = "-" then some .NEG
  else if op = "!" then some .NOT
  else none

def unOpEmit (cg : CG) (op : String) : CG :=
  match unOp op with
  | some oc => cg.emit oc 0
  | none => cg

/-- The recursive body of the bytecode compiler
(`CodeGenerator::generate_expression` / `generate_statement` /
`generate_block` and the helpers they dispatch to), as a single
fuel-structural function.  The fuel is needed because
`generate_new_expr` recurses into field initializers taken from the class
map, not from the node — the C++ recursion is not structurally bounded
(a class whose field initializer news the same class loops forever).
`none` means the fuel ran out. -/
def genRun : Nat → GenReq → CG → Option CG
  | 0, _, _ => none
  | fuel + 1, .expr e, cg =>
    match e with
    | .intLit v => some (emitConstLoad cg (.intV v))
    | .floatLit q => some (emitConstLoad cg (.floatV q))
    | .doubleLit q => some (emitConstLoad cg (.doubleV q))
    | .boolLit b => some (emitConstLoad cg (.boolV b))
    | .strLit str =>
        some (emitConstLoad { cg with pool := (poolAdd cg.pool str).2 }
          (.stringV ((poolAdd cg.pool str).1 : Int)))
    | .identE name =>
        match alookup cg.locals name with
        | some i => some (cg.emit .LOAD_VAR i)
        | none => some (emitWithName cg .LOAD_GLOBAL name)
    | .binE l op r =>
        match genRun fuel (.expr l) cg with
        | some cg₁ =>
          match genRun fuel (.expr r) cg₁ with
          | some cg₂ => some (binOpEmit cg₂ op)
          | none => none
        | none => none
    | .unE op e₁ =>
        match genRun fuel (.expr e₁) cg with
        | some cg₁ => some (unOpEmit cg₁ op)
        | none => none
    | .callE (.memberE (.identE objName) member) args =>
        -- `generate_call_expr`, member call on an identifier receiver:
        -- the three magic receivers, else the general method convention
        if member = "emit" then
          match genRun fuel (.exprList args) cg with
          | some cg₁ => some (emitWithName cg₁ .SIGNAL_EMIT objName)
          | none => none
        else if member = "recv" then
          some (emitWithName cg .SIGNAL_RECV objName)
        else if member = "execute" then
          some (emitWithName cg .EVENT_EXECUTE objName)
        else
          match genRun fuel (.expr (.identE objName)) cg with
          | some cg₁ =>
            match genRun fuel (.exprList args) cg₁ with
            | some cg₂ =>
                some (emitWithName
                  (emitConstLoad cg₂ (.intV ((args.length : Int) + 1))) .CALL member)
            | none => none
          | none => none
    | .callE (.memberE obj member) args =>
        -- member call on a non-identifier receiver: the general convention
        match genRun fuel (.expr obj) cg with
        | some cg₁ =>
          match genRun fuel (.exprList args) cg₁ with
          | some cg₂ =>
              some (emitWithName
                (emitConstLoad cg₂ (.intV ((args.length : Int) + 1))) .CALL member)
          | none => none
        | none => none
    | .callE callee args =>
        match genRun fuel (.exprList args) cg with
        | some cg₁ =>
          match callee with
          | .identE name =>
              some (emitWithName (emitConstLoad cg₁ (.intV (args.length : Int))) .CALL name)
          | _ => some (emitConstLoad cg₁ (.intV (args.length : Int)))
        | none => none
    | .memberE (.identE objName) member =>
        -- `generate_member_expr` on an identifier object
        if member = "emit" then some (emitWithName cg .SIGNAL_EMIT objName)
        else if member = "recv" then some (emitWithName cg .SIGNAL_RECV objName)
        else if member = "execute" then some (emitWithName cg .EVENT_EXECUTE objName)
        else
          match genRun fuel (.expr (.identE objName)) cg with
          | some cg₁ => some (emitWithName cg₁ .GET_FIELD member)
          | none => none
    | .memberE obj member =>
        match genRun fuel (.expr obj) cg with
        | some cg₁ => some (emitWithName cg₁ .GET_FIELD member)
        | none => none
    | .indexE arr idx =>
        match genRun fuel (.expr arr) cg with
        | some cg₁ =>
          match genRun fuel (.expr idx) cg₁ with
          | some cg₂ => some (cg₂.emit .ARRAY_INDEX 0)
          | none => none
        | none => none
    | .arrayE elems =>
        match genRun fuel (.exprList elems) cg with
        | some cg₁ => some (cg₁.emit .BUILD_ARRAY (elems.length : Int))
        | none => none
    | .newE cname args =>
        -- `generate_new_expr`: arguments, NEW_OBJECT, then the
        -- field-initializer loop for the class found in `_classes`
        match genRun fuel (.exprList args) cg with
        | some cg₁ =>
          match alookup (emitWithName cg₁ .NEW_OBJECT cname).classes
              (poolGet (poolAdd cg₁.pool cname).2 ((poolAdd cg₁.pool cname).1 : Int)) with
          | some cls => genRun fuel (.fieldInits cls.fields) (emitWithName cg₁ .NEW_OBJECT cname)
          | none => some (emitWithName cg₁ .NEW_OBJECT cname)
        | none => none
    | .thisE =>
        match alookup cg.locals "this" with
        | some i => some (cg.emit .LOAD_VAR i)
        | none => some cg
  | fuel + 1, .exprList es, cg =>
    match es with
    | [] => some cg
    | e :: rest =>
      match genRun fuel (.expr e) cg with
      | some cg₁ => genRun fuel (.exprList rest) cg₁
      | none => none
  | fuel + 1, .fieldInits fs, cg =>
    match fs with
    | [] => some cg
    | f :: rest =>
      match f.init with
      | some e =>
        match genRun fuel (.expr e) (cg.emit .DUP 0) with
        | some cg₂ => genRun fuel (.fieldInits rest) (emitWithName cg₂ .SET_FIELD f.name)
        | none => none
      | none => genRun fuel (.fieldInits rest) cg
  | fuel + 1, .stmt s, cg =>
    match s with
    | .varDecl _ name init =>
      match init with
      | some e =>
        match genRun fuel (.expr e)
            { cg with locals := ainsert cg.locals name cg.nextLocal,
                      nextLocal := cg.nextLocal + 1 } with
        | some cg₂ => some (cg₂.emit .STORE_VAR cg.nextLocal)
        | none => none
      | none =>
        some ((emitConstLoad
          { cg with locals := ainsert cg.locals name cg.nextLocal,
                    nextLocal := cg.nextLocal + 1 } (.intV 0)).emit .STORE_VAR cg.nextLocal)
    | .ifS cond thenB elseB =>
      match genRun fuel (.expr cond) cg with
      | some cg₁ =>
        match genRun fuel (.stmt thenB) (cg₁.emit .JUMP_IF_FALSE 0) with
        | some cg₃ =>
          match elseB with
          | some eb =>
            match genRun fuel (.stmt eb)
                ((cg₃.emit .JUMP 0).patch cg₁.code.length (cg₃.emit .JUMP 0).code.length) with
            | some cg₆ => some (cg₆.patch cg₃.code.length cg₆.code.length)
            | none => none
          | none =>
            some (((cg₃.emit .JUMP 0).patch cg₁.code.length
                (cg₃.emit .JUMP 0).code.length).patch cg₃.code.length
              ((cg₃.emit .JUMP 0).patch cg₁.code.length (cg₃.emit .JUMP 0).code.length).code.length)
        | none => none
      | none => none
    | .whileS cond body =>
      match genRun fuel (.expr cond) cg with
      | some cg₁ =>
        match genRun fuel (.stmt body) (cg₁.emit .JUMP_IF_FALSE 0) with
        | some cg₃ =>
          some ((cg₃.emit .JUMP (cg.code.length : Int)).patch cg₁.code.length
            (cg₃.emit .JUMP (cg.code.length : Int)).code.length)
        | none => none
      | none => none
    | .returnS v =>
      match v with
      | some e =>
        match genRun fuel (.expr e) cg with
        | some cg₁ => some (cg₁.emit .RETURN 0)
        | none => none
      | none => some ((emitConstLoad cg (.intV 0)).emit .RETURN 0)
    | .exprS e =>
      match genRun fuel (.expr e) cg with
      | some cg₁ => some (cg₁.emit .POP 0)
      | none => none
    | .blockS ss => genRun fuel (.stmtList ss) cg
    | .forS => some cg
    | .breakS => some cg
  | fuel + 1, .stmtList ss, cg =>
    match ss with
    | [] => some cg
    | s :: rest =>
      match genRun fuel (.stmt s) cg with
      | some cg₁ => genRun fuel (.stmtList rest) cg₁
      | none => none

/-- The parameter-registration loop at the start of
`CodeGenerator::generate_function` (and the same loop in
`generate_class`): each parameter gets the next dense local slot. -/
def insertParams : List Param → CG → CG
  | [], cg => cg
  | p :: ps, cg =>
      insertParams ps
        { cg with locals := ainsert cg.locals p.name cg.nextLocal, nextLocal := cg.nextLocal + 1 }

/-- `CodeGenerator::generate_function`: fresh stream, the `""`/`0` marker
insertion, slot counter reset, parameters, body, then the implicit
`LOAD_CONST`-of-zero and `RETURN`.  Returns the generator state and the
stream registered under the function's name. -/
def generateFunction (fuel : Nat) (f : FunctionDecl) (cg : CG) : Option (CG × List Instruction) :=
  match genRun fuel (.stmtList f.body)
      (insertParams f.params
        { cg with code := [], locals := ainsert cg.locals "" 0, nextLocal := 0 }) with
  | some cg₃ =>
    some ((emitConstLoad cg₃ (.intV 0)).emit .RETURN 0,
          ((emitConstLoad cg₃ (.intV 0)).emit .RETURN 0).code)
  | none => none

/-- `CodeGenerator::generate_process`: like a function but terminated with
`HALT` and registered in the process map. -/
def generateProcess (fuel : Nat) (p : ProcessDecl) (cg : CG) : Option (CG × List Instruction) :=
  match genRun fuel (.stmtList p.body)
      { cg with code := [], locals := ainsert cg.locals "" 0, nextLocal := 0 } with
  | some cg₂ => some (cg₂.emit .HALT 0, (cg₂.emit .HALT 0).code)
  | none => none

/-- One iteration of the method loop of `CodeGenerator::generate_class`:
`this` takes slot 0, parameters follow, body, implicit zero-load and
return; the stream is keyed `Class.method`. -/
def generateMethod (fuel : Nat) (clsName : String) (m : FunctionDecl) (cg : CG) :
    Option (CG × String × List Instruction) :=
  match genRun fuel (.stmtList m.body)
      (insertParams m.params
        { cg with code := [], locals := ainsert (ainsert cg.locals "" 0) "this" 0,
                  nextLocal := 1 }) with
  | some cg₄ =>
    some ((emitConstLoad cg₄ (.intV 0)).emit .RETURN 0, clsName ++ "." ++ m.name,
          ((emitConstLoad cg₄ (.intV 0)).emit .RETURN 0).code)
  | none => none

/-- The method loop of `generate_class`, collecting the `Class.method`
streams in order. -/
def genMethods (fuel : Nat) (clsName : String) :
    List FunctionDecl → CG → Option (CG × List (String × List Instruction))
  | [], cg => some (cg, [])
  | m :: ms, cg =>
    match generateMethod fuel clsName m cg with
    | some (cg₁, key, stream) =>
      match genMethods fuel clsName ms cg₁ with
      | some (cg₂, rest) => some (cg₂, (key, stream) :: rest)
      | none => none
    | none => none

/-- `CodeGenerator::generate_class`: intern the class name, record the
class declaration under the interned key, then generate every method. -/
def generateClass (fuel : Nat) (cls : ClassDecl) (cg : CG) :
    Option (CG × List (String × List Instruction)) :=
  genMethods fuel cls.name cls.methods
    { cg with pool := (poolAdd cg.pool cls.name).2,
              classes := ainsert cg.classes
                (poolGet (poolAdd cg.pool cls.name).2 ((poolAdd cg.pool cls.name).1 : Int)) cls }

/-! ## Process registration in `main` (`src/main.cpp`, lines 185-199) -/

/-- The process registration loop of `main.cpp`: for every entry of the
process-code map, build one `ProcessContext` and register it under EVERY
declared event name (the inner loop `for (j < events.size())
register_process(events[j], ctx)`), via `EventScheduler::register_process`
append semantics.  The process's own attached event name is not consulted
(it is not even present in `process_codes`). -/
def mainRegisterProcesses (events : List String)
    (procCodes : List (String × List Instruction)) (constants : List Value) :
    List (String × List Ctx) :=
  procCodes.foldl
    (fun reg p => events.foldl (fun r e => registerProcess r e ⟨p.2, constants⟩) reg)
    []

/-- The registration the spec (and the repository's own tests, e.g.
`tests/test_all.cpp`) prescribe: each process context registered exactly
under the event named in its `ProcessDecl` (`@event`).  A process is given
as (process name, attached event name, bytecode). -/
def attachedRegistry (procs : List (String × String × List Instruction))
    (constants : List Value) : List (String × List Ctx) :=
  procs.foldl (fun reg p => registerProcess reg p.2.1 ⟨p.2.2, constants⟩) []

/-- The process contexts that `EventScheduler::execute_event` runs for an
event: the registered list, or nothing when the event is absent. -/
def processesRunBy (reg : List (String × List Ctx)) (evt : String) : List Ctx :=
  (alookup reg evt).getD []

/-! ## Concrete instances used in witnesses and counterexamples -/

/-- A runtime with the given string pool and constants and nothing
registered (no globals, builtins, user functions, signals, processes). -/
def rtWith (pool : List String) (consts : List Value) : RT :=
  ⟨pool, consts, [], [], [], [], [], []⟩

/-- The stream `LOAD_CONST 0; LOAD_CONST 1; DIV; RETURN` (what the
compiler emits for `return a / b;` with two literals). -/
def divProgram : List Instruction :=
  [⟨.LOAD_CONST, 0⟩, ⟨.LOAD_CONST, 1⟩, ⟨.DIV, 0⟩, ⟨.RETURN, 0⟩]

/-- The stream `LOAD_CONST 0; LOAD_CONST 1; MOD; RETURN`. -/
def modProgram : List Instruction :=
  [⟨.LOAD_CONST, 0⟩, ⟨.LOAD_CONST, 1⟩, ⟨.MOD, 0⟩, ⟨.RETURN, 0⟩]

/-- The stream `LOAD_CONST 0; LOAD_CONST 1; CONCAT; RETURN`. -/
def concatProgram : List Instruction :=
  [⟨.LOAD_CONST, 0⟩, ⟨.LOAD_CONST, 1⟩, ⟨.CONCAT, 0⟩, ⟨.RETURN, 0⟩]

/-- Whether a produced result value carries the `DOUBLE` tag. -/
def isDoubleResult : Option Value → Bool
  | some (.doubleV _) => true
  | _ => false

/-- Generator-state extension: the instruction stream and the constant
pool only ever grow by appending during generation (forward patches write
only into the appended part), so a later state extends an earlier one. -/
def CGext (cg cg' : CG) : Prop :=
  (∃ s, cg'.code = cg.code ++ s) ∧ (∃ t, cg'.constants = cg.constants ++ t)

/-- A class `C` that declares a method named `C` (a constructor per the
spec) and no fields. -/
def ctorClass : ClassDecl := ⟨"C", [], [⟨"void", "C", [], []⟩]⟩

/-- A generator state whose class map contains `ctorClass`. -/
def cgWithCtor : CG := ⟨[], [], [], [], 0, [("C", ctorClass)]⟩

/-- A function whose body ends in an explicit `return 3`. -/
def f0 : FunctionDecl := ⟨"int", "main", [], [.returnS (some (.intLit 3))]⟩

/-- A method with an empty body. -/
def m0 : FunctionDecl := ⟨"int", "get", [], []⟩

/-- The empty generator state. -/
def cg0 : CG := ⟨[], [], [], [], 0, []⟩

/-- The stream `generateFunction` produces for `f0`: the explicit return,
then the implicit zero-load and return. -/
def fnStream : List Instruction :=
  [⟨.LOAD_CONST, 0⟩, ⟨.RETURN, 0⟩, ⟨.LOAD_CONST, 1⟩, ⟨.RETURN, 0⟩]

/-- The generator state after `generateFunction` on `f0`. -/
def fnOut : CG := ⟨fnStream, [.intV 3, .intV 0], [], [("", 0)], 0, []⟩

/-- The stream `generateMethod` produces for `m0` (empty body: only the
implicit epilogue). -/
def mStream : List Instruction := [⟨.LOAD_CONST, 0⟩, ⟨.RETURN, 0⟩]

/-- The generator state after `generateMethod` on `m0`. -/
def mOut : CG := ⟨mStream, [.intV 0], [], [("", 0), ("this", 0)], 1, []⟩

/-- The generator state that `new C()` produces from `cgWithCtor`. -/
def cgNew : CG := ⟨[⟨.NEW_OBJECT, 0⟩], [], ["C"], [], 0, [("C", ctorClass)]⟩

/-- A field with an initializer. -/
def f1 : FieldDecl := ⟨"int", "x", some (.intLit 1)⟩

/-- A field without an initializer. -/
def f2 : FieldDecl := ⟨"int", "y", none⟩

/-- The generator state the field-initializer loop produces for `[f1]`
from `cg0`. -/
def fiOut : CG := ⟨[⟨.DUP, 0⟩, ⟨.LOAD_CONST, 0⟩, ⟨.SET_FIELD, 0⟩], [.intV 1], ["x"], [], 0, []⟩

/-! # Theorems -/

/-! ## String pool lemmas -/

theorem poolAdd_fst_lt (pool : List String) (s : String) :
    (poolAdd pool s).1 < (poolAdd pool s).2.length := by
  induction pool with
  | nil => simp [poolAdd]
  | cons p ps ih =>
    by_cases h : p = s
    · simp [poolAdd, h]
    · simp only [poolAdd, if_neg h]
      simpa using ih

theorem poolAdd_getD_fst (pool : List String) (s : String) :
    ((poolAdd pool s).2).getD (poolAdd pool s).1 "" = s := by
  induction pool with
  | nil => simp [poolAdd]
  | cons p ps ih =>
    by_cases h : p = s
    · simp [poolAdd, h]
    · simp only [poolAdd, if_neg h]
      simpa using ih

theorem poolAdd_getD_stable (pool : List String) (s : String) (j : Nat)
    (hj : j < pool.length) : ((poolAdd pool s).2).getD j "" = pool.getD j "" := by
  induction pool generalizing j with
  | nil => simp at hj
  | cons p ps ih =>
    by_cases h : p = s
    · simp [poolAdd, h]
    · simp only [poolAdd, if_neg h]
      cases j with
      | zero => simp
      | succ j => simpa using ih j (by simpa using hj)

theorem poolAdd_length_le (pool : List String) (s : String) :
    pool.length ≤ (poolAdd pool s).2.length := by
  induction pool with
  | nil => simp [poolAdd]
  | cons p ps ih =>
    by_cases h : p = s
    · simp [poolAdd, h]
    · simp only [poolAdd, if_neg h]
      simpa using ih

theorem poolAdd_idem (pool : List String) (s : String) :
    poolAdd (poolAdd pool s).2 s = ((poolAdd pool s).1, (poolAdd pool s).2) := by
  induction pool with
  | nil => simp [poolAdd]
  | cons p ps ih =>
    by_cases h : p = s
    · simp [poolAdd, h]
    · simp only [poolAdd, if_neg h]
      simp [poolAdd, if_neg h, ih]

theorem poolAdd_of_mem (pool : List String) (s : String) (h : s ∈ pool) :
    (poolAdd pool s).2 = pool := by
  induction pool with
  | nil => simp at h
  | cons p ps ih =>
    by_cases hp : p = s
    · simp [poolAdd, hp]
    · simp only [poolAdd, if_neg hp]
      have : s ∈ ps := by
        rcases List.mem_cons.1 h with h1 | h1
        · exact absurd h1.symm hp
        · exact h1
      simp [ih this]

theorem poolAdd_of_not_mem (pool : List String) (s : String) (h : s ∉ pool) :
    (poolAdd pool s).2 = pool ++ [s] := by
  induction pool with
  | nil => simp [poolAdd]
  | cons p ps ih =>
    have hp : p ≠ s := fun he => h (by simp [he])
    have hs : s ∉ ps := fun hm => h (by simp [hm])
    simp [poolAdd, if_neg hp, ih hs]

theorem poolAdd_nodup (pool : List String) (s : String) (h : pool.Nodup) :
    (poolAdd pool s).2.Nodup := by
  by_cases hm : s ∈ pool
  · rw [poolAdd_of_mem pool s hm]; exact h
  · rw [poolAdd_of_not_mem pool s hm]
    simpa [List.nodup_append] using ⟨h, hm⟩

/-- C6: `StringPool::add` is idempotent and injective: repeating an `add`
returns the same index and leaves the pool unchanged; adds of distinct
strings return distinct indices; `add` preserves freedom from duplicates;
an `add` never changes the entry at a previously valid index; and `get`
after `add(s)` returns `s`. -/
theorem stringPool_add_spec (pool : List String) (s t : String) (hnd : pool.Nodup) :
    poolAdd (poolAdd pool s).2 s = ((poolAdd pool s).1, (poolAdd pool s).2)
    ∧ (s ≠ t → (poolAdd (poolAdd pool s).2 t).1 ≠ (poolAdd pool s).1)
    ∧ (poolAdd pool s).2.Nodup
    ∧ (∀ j, j < pool.length → ((poolAdd pool s).2).getD j "" = pool.getD j "")
    ∧ poolGet (poolAdd pool s).2 ((poolAdd pool s).1 : Int) = s := by
  refine ⟨poolAdd_idem pool s, ?_, poolAdd_nodup pool s hnd, poolAdd_getD_stable pool s, ?_⟩
  · intro hst heq
    set p₁ := (poolAdd pool s).2 with hp₁
    set i₁ := (poolAdd pool s).1 with hi₁
    have h1 : p₁.getD i₁ "" = s := poolAdd_getD_fst pool s
    have h2 : ((poolAdd p₁ t).2).getD (poolAdd p₁ t).1 "" = t := poolAdd_getD_fst p₁ t
    have h3 : i₁ < p₁.length := poolAdd_fst_lt pool s
    have h4 : ((poolAdd p₁ t).2).getD i₁ "" = p₁.getD i₁ "" := poolAdd_getD_stable p₁ t i₁ h3
    rw [heq] at h2
    rw [h4, h1] at h2
    exact hst h2
  · have h1 : ((poolAdd pool s).2).getD (poolAdd pool s).1 "" = s := poolAdd_getD_fst pool s
    have h3 : (poolAdd pool s).1 < (poolAdd pool s).2.length := poolAdd_fst_lt pool s
    unfold poolGet
    rw [if_pos (by exact ⟨Int.natCast_nonneg _, by exact_mod_cast h3⟩)]
    simpa using h1

/-- Witness for `stringPool_add_spec` at a concrete pool. -/
theorem stringPool_add_spec_witness :
    (["x"] : List String).Nodup ∧
    (poolAdd (poolAdd ["x"] "y").2 "y" = ((poolAdd ["x"] "y").1, (poolAdd ["x"] "y").2)
      ∧ ("y" ≠ "z" → (poolAdd (poolAdd ["x"] "y").2 "z").1 ≠ (poolAdd ["x"] "y").1)
      ∧ (poolAdd ["x"] "y").2.Nodup
      ∧ (∀ j, j < (["x"] : List String).length →
          ((poolAdd ["x"] "y").2).getD j "" = (["x"] : List String).getD j "")
      ∧ poolGet (poolAdd ["x"] "y").2 ((poolAdd ["x"] "y").1 : Int) = "y") :=
  ⟨by decide, stringPool_add_spec ["x"] "y" "z" (by decide)⟩

/-! ## Signal queue lemmas -/

theorem sq_emit_contents (s : SQ) (v : Value) (h : sqInv s) :
    (s.emit v).contents = s.contents ++ [v] := by
  obtain ⟨hw, hr⟩ := h
  unfold SQ.emit SQ.contents
  by_cases hcase : s.queue.length ≤ s.wpos
  · have hwl : s.wpos = s.queue.length := le_antisymm hw hcase
    simp only [if_pos hcase]
    have h1 : (s.queue ++ [v]).take (s.wpos + 1) = s.queue ++ [v] := by
      apply List.take_of_length_le
      simp [hwl]
    have h2 : s.queue.take s.wpos = s.queue := by
      apply List.take_of_length_le
      omega
    rw [h1, h2, List.drop_append_eq_append_drop]
    have : s.rpos - s.queue.length = 0 := by omega
    simp [this]
  · push_neg at hcase
    simp only [if_neg (by omega : ¬ s.queue.length ≤ s.wpos)]
    rw [List.set_eq_take_cons_drop v hcase]
    have hlen : (s.queue.take s.wpos).length = s.wpos := by
      simp [Nat.min_eq_left hw]
    rw [List.take_append_eq_append_take, hlen]
    have h1 : (s.queue.take s.wpos).take (s.wpos + 1) = s.queue.take s.wpos := by
      apply List.take_of_length_le
      omega
    have h2 : s.wpos + 1 - s.wpos = 1 := by omega
    rw [h1, h2, List.drop_append_eq_append_drop, hlen]
    have h3 : s.rpos - s.wpos = 0 := by omega
    simp [h3]

theorem sq_emit_inv (s : SQ) (v : Value) (h : sqInv s) : sqInv (s.emit v) := by
  obtain ⟨hw, hr⟩ := h
  unfold SQ.emit sqInv
  by_cases hcase : s.queue.length ≤ s.wpos
  · simp only [if_pos hcase]
    refine ⟨?_, ?_⟩
    · show s.wpos + 1 ≤ (s.queue ++ [v]).length
      simp only [List.length_append, List.length_cons, List.length_nil]
      omega
    · show s.rpos ≤ s.wpos + 1
      omega
  · simp only [if_neg hcase]
    refine ⟨?_, ?_⟩
    · show s.wpos + 1 ≤ (s.queue.set s.wpos v).length
      simp only [List.length_set]
      omega
    · show s.rpos ≤ s.wpos + 1
      omega

theorem sq_contents_length (s : SQ) (h : sqInv s) :
    s.contents.length = s.wpos - s.rpos := by
  obtain ⟨hw, _⟩ := h
  unfold SQ.contents
  simp [Nat.min_eq_left hw]

theorem sq_recv_none_iff (s : SQ) (h : sqInv s) : s.recv = none ↔ s.contents = [] := by
  have hlen := sq_contents_length s h
  unfold SQ.recv
  by_cases hcase : s.wpos ≤ s.rpos
  · simp only [if_pos hcase]
    have : s.contents.length = 0 := by omega
    simp [List.length_eq_zero.1 this]
  · simp only [if_neg hcase]
    push_neg at hcase
    have hne : s.contents.length ≠ 0 := by omega
    constructor
    · intro hc
      by_cases hend : s.rpos + 1 = s.wpos <;> simp [hend] at hc
    · intro hc
      exact absurd (by simp [hc]) hne

theorem sq_recv_cons (s : SQ) (h : sqInv s) (w : Value) (l : List Value)
    (hc : s.contents = w :: l) :
    ∃ s', s.recv = some (w, s') ∧ s'.contents = l ∧ sqInv s'
      ∧ (l = [] → s'.rpos = 0 ∧ s'.wpos = 0) := by
  obtain ⟨hw, hr⟩ := h
  have hlen := sq_contents_length s ⟨hw, hr⟩
  have hlen' : s.contents.length = l.length + 1 := by simp [hc]
  have hrw : s.rpos < s.wpos := by omega
  have hval : s.queue[s.rpos]? = some w := by
    have h0 : s.contents.head? = some w := by simp [hc]
    unfold SQ.contents at h0
    rw [List.head?_drop] at h0
    have h1 : (s.queue.take s.wpos)[s.rpos]? = s.queue[s.rpos]? := by
      apply List.getElem?_take_of_lt
      exact hrw
    rw [h1] at h0
    exact h0
  have hvalD : s.queue.getD s.rpos Value.noneV = w := by
    simp [List.getD_eq_getD_get?, hval]
  unfold SQ.recv
  simp only [if_neg (by omega : ¬ s.wpos ≤ s.rpos)]
  by_cases hend : s.rpos + 1 = s.wpos
  · refine ⟨⟨s.queue, 0, 0⟩, ?_, ?_, ?_, ?_⟩
    · simp [hend, hval]
    · have : l.length = 0 := by omega
      have hl0 : l = [] := List.length_eq_zero.1 this
      simp [SQ.contents, hl0]
    · exact ⟨Nat.zero_le _, Nat.le_refl 0⟩
    · intro _; exact ⟨rfl, rfl⟩
  · refine ⟨⟨s.queue, s.wpos, s.rpos + 1⟩, ?_, ?_, ?_, ?_⟩
    · simp [hend, hval]
    · have h1 : s.contents.tail = l := by simp [hc]
      unfold SQ.contents at h1
      show List.drop (s.rpos + 1) (List.take s.wpos s.queue) = l
      rw [← List.tail_drop]
      exact h1
    · refine ⟨hw, ?_⟩
      show s.rpos + 1 ≤ s.wpos
      omega
    · intro hl0
      exfalso
      have : l.length = 0 := by simp [hl0]
      omega

/-- C2: signal queues are FIFO.  Under the structural invariant: an `emit`
appends exactly one value to the abstract queue contents; `recv` yields
nothing (the caller blocks) exactly when the contents are empty; when the
contents are `w :: l`, `recv` returns `w` — the oldest unconsumed emit —
leaving contents `l`, and if that drained the queue both cursors are reset
to zero; the invariant holds initially and is preserved. -/
theorem signalQueue_fifo (s : SQ) (v : Value) (h : sqInv s) :
    ((s.emit v).contents = s.contents ++ [v] ∧ sqInv (s.emit v))
    ∧ (s.recv = none ↔ s.contents = [])
    ∧ (∀ w l, s.contents = w :: l →
        ∃ s', s.recv = some (w, s') ∧ s'.contents = l ∧ sqInv s'
          ∧ (l = [] → s'.rpos = 0 ∧ s'.wpos = 0))
    ∧ sqInv SQ.init :=
  ⟨⟨sq_emit_contents s v h, sq_emit_inv s v h⟩,
   sq_recv_none_iff s h,
   fun w l hc => sq_recv_cons s h w l hc,
   ⟨Nat.le_refl 0, Nat.le_refl 0⟩⟩

/-- Witness for `signalQueue_fifo` at a one-element queue. -/
theorem signalQueue_fifo_witness :
    sqInv ⟨[Value.intV 7], 1, 0⟩ ∧
    (((SQ.emit ⟨[Value.intV 7], 1, 0⟩ (Value.intV 9)).contents
        = SQ.contents ⟨[Value.intV 7], 1, 0⟩ ++ [Value.intV 9]
      ∧ sqInv (SQ.emit ⟨[Value.intV 7], 1, 0⟩ (Value.intV 9)))
    ∧ (SQ.recv ⟨[Value.intV 7], 1, 0⟩ = none ↔ SQ.contents ⟨[Value.intV 7], 1, 0⟩ = [])
    ∧ (∀ w l, SQ.contents ⟨[Value.intV 7], 1, 0⟩ = w :: l →
        ∃ s', SQ.recv ⟨[Value.intV 7], 1, 0⟩ = some (w, s') ∧ s'.contents = l ∧ sqInv s'
          ∧ (l = [] → s'.rpos = 0 ∧ s'.wpos = 0))
    ∧ sqInv SQ.init) :=
  ⟨by decide, signalQueue_fifo ⟨[Value.intV 7], 1, 0⟩ (Value.intV 9) (by decide)⟩

/-! ## Cache lemmas -/

theorem splitLast_of_not_mem (sep : Char) (l : List Char) (h : sep ∉ l) :
    splitLast sep l = none := by
  induction l with
  | nil => rfl
  | cons c cs ih =>
    have hc : c ≠ sep := fun he => h (by simp [he])
    have hs : sep ∉ cs := fun hm => h (by simp [hm])
    simp [splitLast, ih hs, hc]

theorem splitLast_append (sep : Char) (l₁ l₂ : List Char) (h : sep ∉ l₂) :
    splitLast sep (l₁ ++ sep :: l₂) = some (l₁, l₂) := by
  induction l₁ with
  | nil => simp [splitLast, splitLast_of_not_mem sep l₂ h]
  | cons c cs ih => simp [splitLast, ih]

theorem isCacheValid_true_iff (srcStat : Option (Nat × Nat))
    (cacheHdr : Option (Option CacheHeader)) :
    isCacheValid srcStat cacheHdr = true ↔
      ∃ m sz hd, srcStat = some (m, sz) ∧ cacheHdr = some (some hd)
        ∧ hd.magic = CACHE_MAGIC ∧ hd.version = CACHE_VERSION
        ∧ hd.sourceMtime = m ∧ hd.sourceSize = sz := by
  constructor
  · intro hv
    match srcStat, cacheHdr with
    | none, _ => simp [isCacheValid] at hv
    | some (m, sz), none => simp [isCacheValid] at hv
    | some (m, sz), some none => simp [isCacheValid] at hv
    | some (m, sz), some (some hd) =>
      refine ⟨m, sz, hd, rfl, rfl, ?_⟩
      by_cases h3 : hd.magic = CACHE_MAGIC
      · by_cases h4 : hd.version = CACHE_VERSION
        · by_cases h5 : hd.sourceMtime = m
          · by_cases h6 : hd.sourceSize = sz
            · exact ⟨h3, h4, h5, h6⟩
            · simp [isCacheValid, h3, h4, h5, h6] at hv
          · simp [isCacheValid, h3, h4, h5] at hv
        · simp [isCacheValid, h3, h4] at hv
      · simp [isCacheValid, h3] at hv
  · rintro ⟨m, sz, hd, h1, h2, h3, h4, h5, h6⟩
    subst h1; subst h2
    simp [isCacheValid, h3, h4, h5, h6]

/-- C4: the cache validity check.  (1) `is_cache_valid` accepts exactly
when the source is statable, the cache header is readable, the magic and
version match the `TICK` constants, and the stored mtime and size equal the
source's.  (2) Changing the source's mtime or size invalidates a
previously valid cache.  (3) The checked cache file is
`<dir>/.tickcache/<basename>.tickc` next to the source. -/
theorem cacheValidity_spec :
    (∀ (srcStat : Option (Nat × Nat)) (cacheHdr : Option (Option CacheHeader)),
      isCacheValid srcStat cacheHdr = true ↔
        ∃ m sz hd, srcStat = some (m, sz) ∧ cacheHdr = some (some hd)
          ∧ hd.magic = CACHE_MAGIC ∧ hd.version = CACHE_VERSION
          ∧ hd.sourceMtime = m ∧ hd.sourceSize = sz)
    ∧ (∀ (m sz m' sz' : Nat) (hd : CacheHeader),
        isCacheValid (some (m, sz)) (some (some hd)) = true →
        (m' ≠ m ∨ sz' ≠ sz) →
        isCacheValid (some (m', sz')) (some (some hd)) = false)
    ∧ (∀ dir base ext : List Char, '/' ∉ base → '/' ∉ ext → '.' ∉ ext →
        getCachePath (String.mk (dir ++ '/' :: (base ++ '.' :: ext)))
          = String.mk (dir ++ "/.tickcache/".toList ++ base ++ ".tickc".toList)) := by
  refine ⟨isCacheValid_true_iff, ?_, ?_⟩
  · intro m sz m' sz' hd hv hne
    have hms : hd.sourceMtime = m ∧ hd.sourceSize = sz := by
      obtain ⟨m₀, sz₀, hd₀, he1, he2, -, -, h5, h6⟩ := (isCacheValid_true_iff _ _).1 hv
      obtain ⟨rfl, rfl⟩ : m = m₀ ∧ sz = sz₀ := by simpa using he1
      obtain rfl : hd = hd₀ := by simpa using he2
      exact ⟨h5, h6⟩
    rw [Bool.eq_false_iff]
    intro hv'
    have hms' : hd.sourceMtime = m' ∧ hd.sourceSize = sz' := by
      obtain ⟨m₁, sz₁, hd₁, hf1, hf2, -, -, h5', h6'⟩ := (isCacheValid_true_iff _ _).1 hv'
      obtain ⟨rfl, rfl⟩ : m' = m₁ ∧ sz' = sz₁ := by simpa using hf1
      obtain rfl : hd = hd₁ := by simpa using hf2
      exact ⟨h5', h6'⟩
    rcases hne with hne | hne
    · exact hne (hms'.1.symm.trans hms.1)
    · exact hne (hms'.2.symm.trans hms.2)
  · intro dir base ext hb he hd
    have hsep : '/' ∉ base ++ '.' :: ext := by
      intro hm
      rcases List.mem_append.1 hm with hm | hm
      · exact hb hm
      · rcases List.mem_cons.1 hm with hm | hm
        · exact absurd hm (by decide)
        · exact he hm
    unfold getCachePath
    simp only [String.toList, splitLast_append '/' dir (base ++ '.' :: ext) hsep,
      splitLast_append '.' base ext hd]

/-- Witness for `cacheValidity_spec` at a concrete header and path. -/
theorem cacheValidity_spec_witness :
    isCacheValid (some (5, 9)) (some (some ⟨CACHE_MAGIC, 1, 5, 9, 0, 0, 0, 0, 0, 0, 0⟩)) = true
    ∧ isCacheValid (some (6, 9)) (some (some ⟨CACHE_MAGIC, 1, 5, 9, 0, 0, 0, 0, 0, 0, 0⟩)) = false
    ∧ getCachePath "dir/prog.tick" = "dir/.tickcache/prog.tickc" := by
  refine ⟨?_, ?_, ?_⟩
  · exact (cacheValidity_spec.1 _ _).2 ⟨5, 9, _, rfl, rfl, rfl, rfl, rfl, rfl⟩
  · exact cacheValidity_spec.2.1 5 9 6 9 _ (by decide) (Or.inl (by decide))
  · have h := cacheValidity_spec.2.2 "dir".toList "prog".toList "tick".toList
      (by decide) (by decide) (by decide)
    simpa using h

/-! ## Lexer lemmas -/

/-- C8 (amended): a byte that is not whitespace, not an identifier start,
not a digit, and not one of the recognized delimiter/operator characters
begins no token: the final `else` of `Lexer::tokenize` silently consumes
it, producing NO token for it (in particular no error token), and the
token stream continues with the remaining input. -/
theorem lexer_unknown_byte_skipped (fuel : Nat) (c : Char) (cs : List Char)
    (line col : Nat) (hws : isWsChar c = false) (hid : isIdentStart c = false)
    (hdig : isDigitChar c = false)
    (hop : c ∉ "\"@(){}<>,;.=!+-*/%&|".toList) :
    tokStep (c :: cs) line col = (none, cs, line, col + 1)
    ∧ tokLoop (fuel + 1) (c :: cs) line col = tokLoop fuel cs line (col + 1) := by
  have hnl : c ≠ '\n' := by
    intro he; subst he; simp [isWsChar] at hws
  have hq : c ≠ '"' := fun he => hop (by rw [he]; decide)
  have hat : c ≠ '@' := fun he => hop (by rw [he]; decide)
  have hlp : c ≠ '(' := fun he => hop (by rw [he]; decide)
  have hrp : c ≠ ')' := fun he => hop (by rw [he]; decide)
  have hlb : c ≠ '\x7b' := fun he => hop (by rw [he]; decide)
  have hrb : c ≠ '\x7d' := fun he => hop (by rw [he]; decide)
  have hlt : c ≠ '<' := fun he => hop (by rw [he]; decide)
  have hgt : c ≠ '>' := fun he => hop (by rw [he]; decide)
  have hcm : c ≠ ',' := fun he => hop (by rw [he]; decide)
  have hsc : c ≠ ';' := fun he => hop (by rw [he]; decide)
  have hdot : c ≠ '.' := fun he => hop (by rw [he]; decide)
  have heq2 : c ≠ '=' := fun he => hop (by rw [he]; decide)
  have hbang : c ≠ '!' := fun he => hop (by rw [he]; decide)
  have hplus : c ≠ '+' := fun he => hop (by rw [he]; decide)
  have hminus : c ≠ '-' := fun he => hop (by rw [he]; decide)
  have hstar : c ≠ '*' := fun he => hop (by rw [he]; decide)
  have hslash : c ≠ '/' := fun he => hop (by rw [he]; decide)
  have hpct : c ≠ '%' := fun he => hop (by rw [he]; decide)
  have hamp : c ≠ '&' := fun he => hop (by rw [he]; decide)
  have hpipe : c ≠ '|' := fun he => hop (by rw [he]; decide)
  have h₁ : skipWs (c :: cs) line col = (c :: cs, line, col) := by
    rw [skipWs, if_neg (by simp [hws])]
  have h₂ : skipComment (c :: cs) col = (c :: cs, col) := by
    unfold skipComment
    split
    · rename_i heq'
      injection heq' with h1 h2
      exact absurd h1 hslash
    · rfl
  have hstep : tokStep (c :: cs) line col = (none, cs, line, col + 1) := by
    rw [tokStep]
    simp only [h₁, h₂]
    simp [hid, hdig, hq, hat, hlp, hrp, hlb, hrb, hlt, hgt, hcm, hsc, hdot, heq2,
      hbang, hplus, hminus, hstar, hslash, hpct, hamp, hpipe, hnl]
  refine ⟨hstep, ?_⟩
  rw [tokLoop, hstep]

/-- Witness for `lexer_unknown_byte_skipped` at the byte `#`. -/
theorem lexer_unknown_byte_skipped_witness :
    (isWsChar '#' = false ∧ isIdentStart '#' = false ∧ isDigitChar '#' = false
      ∧ '#' ∉ "\"@(){}<>,;.=!+-*/%&|".toList)
    ∧ (tokStep ['#', 'a'] 1 1 = (none, ['a'], 1, 2)
      ∧ tokLoop 4 ['#', 'a'] 1 1 = tokLoop 3 ['a'] 1 2) :=
  ⟨⟨by decide, by decide, by decide, by decide⟩,
   lexer_unknown_byte_skipped 3 '#' ['a'] 1 1 (by decide) (by decide) (by decide) (by decide)⟩

/-- C8 counterexample: on the source `#` — a byte that begins no
recognized token — the token stream is just the `END_OF_FILE` sentinel: it
contains no token whose lexeme is `#` and no `INVALID` token at all, so
the lexer does NOT surface an error token for the unknown byte. -/
theorem lexer_unknown_byte_counterexample :
    tokenize "#" = [⟨.END_OF_FILE, "", 1, 2⟩]
    ∧ (tokenize "#").all (fun t => t.lexeme != "#") = true
    ∧ (tokenize "#").all (fun t => t.ttype != .INVALID) = true := by
  refine ⟨by decide, by decide, by decide⟩

/-! ## Interpreter: unregistered signals (C10) -/

/-- C10: executing `SIGNAL_EMIT` on a signal name absent from the signal
registry leaves the evaluation stack unchanged and continues silently (the
value is NOT popped); executing `SIGNAL_RECV` on an absent signal pushes
the integer `0` and continues (no blocking, no failure). -/
theorem signal_unregistered_spec (fuel : Nat) (code : List Instruction)
    (consts stack locals : List Value) (pc : Nat) (rt : RT) (op : Int)
    (hpc : pc < code.length) :
    (code.getD pc default = ⟨.SIGNAL_EMIT, op⟩ →
      rt.getSignal (poolGet rt.pool op) = none →
      vmRun (fuel + 1) (.exec code consts stack locals pc) rt
        = vmRun fuel (.exec code consts stack locals (pc + 1)) rt)
    ∧ (code.getD pc default = ⟨.SIGNAL_RECV, op⟩ →
      rt.getSignal (poolGet rt.pool op) = none →
      vmRun (fuel + 1) (.exec code consts stack locals pc) rt
        = vmRun fuel (.exec code consts (Value.intV 0 :: stack) locals (pc + 1)) rt) := by
  constructor
  · intro hI hs
    rw [vmRun, if_pos hpc, hI]
    simp only [hs]
  · intro hI hs
    rw [vmRun, if_pos hpc, hI]
    simp only [hs]

/-- Witness for `signal_unregistered_spec` on one-instruction programs
against a runtime with no registered signals. -/
theorem signal_unregistered_spec_witness :
    (0 < ([⟨.SIGNAL_EMIT, (0 : Int)⟩] : List Instruction).length)
    ∧ (vmRun 6 (.exec [⟨.SIGNAL_EMIT, 0⟩] [] [Value.intV 7] (localsInit []) 0) (rtWith ["s"] [])
        = vmRun 5 (.exec [⟨.SIGNAL_EMIT, 0⟩] [] [Value.intV 7] (localsInit []) 1) (rtWith ["s"] []))
    ∧ (vmRun 6 (.exec [⟨.SIGNAL_RECV, 0⟩] [] [] (localsInit []) 0) (rtWith ["s"] [])
        = vmRun 5 (.exec [⟨.SIGNAL_RECV, 0⟩] [] [Value.intV 0] (localsInit []) 1) (rtWith ["s"] [])) :=
  ⟨by decide,
   (signal_unregistered_spec 5 [⟨.SIGNAL_EMIT, 0⟩] [] [Value.intV 7] (localsInit []) 0
      (rtWith ["s"] []) 0 (by decide)).1 (by decide) (by decide),
   (signal_unregistered_spec 5 [⟨.SIGNAL_RECV, 0⟩] [] [] (localsInit []) 0
      (rtWith ["s"] []) 0 (by decide)).2 (by decide) (by decide)⟩

/-! ## Interpreter: division by zero (C3) -/

/-- C3 counterexample: `DIV` on two `DOUBLE` operands with divisor zero is
NOT treated as a fatal error: the interpreter pushes a `DOUBLE` result
value and execution continues normally to the `RETURN`, which yields that
value as the program's result. -/
theorem div_by_zero_counterexample :
    isDoubleResult (resultValue (interpExecute 8 divProgram
      [Value.doubleV 1, Value.doubleV 0] (rtWith [] []))) = true := by
  decide

/-- C3 (amended): the interpreter contains no divisor check.  `DIV` on
`DOUBLE` operands always produces a `DOUBLE` result value and continues,
divisor zero included; `DIV` and `MOD` on integer operands with divisor
zero execute the C++ native division, whose behaviour is undefined (the
embedding's undefined outcome `none`) — no error is reported and no result
is produced by the interpreter itself in that case. -/
theorem div_by_zero_amended (x y : Rat) (a b : Int) (rt : RT) (hb : b = 0) :
    isDoubleResult (resultValue (interpExecute 8 divProgram
      [Value.doubleV x, Value.doubleV y] rt)) = true
    ∧ resultValue (interpExecute 8 divProgram [Value.intV a, Value.intV b] rt) = none
    ∧ resultValue (interpExecute 8 modProgram [Value.intV a, Value.intV b] rt) = none := by
  subst hb
  refine ⟨rfl, ?_, ?_⟩ <;>
    simp [interpExecute, vmRun, resultValue, idxNat, localsInit, numBin, stackPop,
      toDoubleVal, Value.isDouble, Value.isFloat, Value.intField, divProgram, modProgram]

/-- Witness for `div_by_zero_amended` at `1.0 / 0.0` and `1 / 0`. -/
theorem div_by_zero_amended_witness :
    ((0 : Int) = 0)
    ∧ (isDoubleResult (resultValue (interpExecute 8 divProgram
        [Value.doubleV 1, Value.doubleV 0] (rtWith [] []))) = true
      ∧ resultValue (interpExecute 8 divProgram [Value.intV 1, Value.intV 0] (rtWith [] [])) = none
      ∧ resultValue (interpExecute 8 modProgram [Value.intV 1, Value.intV 0] (rtWith [] [])) = none) :=
  ⟨rfl, div_by_zero_amended 1 0 1 0 (rtWith [] []) rfl⟩

/-! ## Process registration (C1) -/

/-- C1: the registration loop of `main.cpp` registers every process
context under EVERY declared event.  With events `e1`, `e2` and a single
process `p` attached (via `@e1`) to `e1`, the code's registry makes
`execute` of `e2` run `p` — the spec (and the repository's own tests,
which register with `proc->event_name`) say executing `e2` must run no
process at all. -/
theorem main_registration_code_bug :
    processesRunBy (mainRegisterProcesses ["e1", "e2"] [("p", [⟨.HALT, 0⟩])] []) "e2"
      = [⟨[⟨.HALT, 0⟩], []⟩]
    ∧ processesRunBy (attachedRegistry [("p", "e1", [⟨.HALT, 0⟩])] []) "e2" = []
    ∧ processesRunBy (mainRegisterProcesses ["e1", "e2"] [("p", [⟨.HALT, 0⟩])] []) "e2"
      ≠ processesRunBy (attachedRegistry [("p", "e1", [⟨.HALT, 0⟩])] []) "e2" := by
  refine ⟨by decide, by decide, by decide⟩

/-! ## Code generator lemmas -/

theorem cgext_refl (cg : CG) : CGext cg cg :=
  ⟨⟨[], by simp⟩, ⟨[], by simp⟩⟩

theorem cgext_trans {a b c : CG} (h₁ : CGext a b) (h₂ : CGext b c) : CGext a c := by
  obtain ⟨⟨s₁, hs₁⟩, ⟨t₁, ht₁⟩⟩ := h₁
  obtain ⟨⟨s₂, hs₂⟩, ⟨t₂, ht₂⟩⟩ := h₂
  exact ⟨⟨s₁ ++ s₂, by rw [hs₂, hs₁, List.append_assoc]⟩,
         ⟨t₁ ++ t₂, by rw [ht₂, ht₁, List.append_assoc]⟩⟩

theorem cgext_emit (cg : CG) (op : OpCode) (x : Int) : CGext cg (cg.emit op x) :=
  ⟨⟨[⟨op, x⟩], rfl⟩, ⟨[], by simp [CG.emit]⟩⟩

theorem cgext_addConst (cg : CG) (v : Value) : CGext cg (cg.addConst v).2 :=
  ⟨⟨[], by simp [CG.addConst]⟩, ⟨[v], rfl⟩⟩

theorem cgext_withPool (cg : CG) (p : List String) : CGext cg { cg with pool := p } :=
  ⟨⟨[], by simp⟩, ⟨[], by simp⟩⟩

theorem cgext_withLocals (cg : CG) (l : List (String × Int)) (nl : Int) :
    CGext cg { cg with locals := l, nextLocal := nl } :=
  ⟨⟨[], by simp⟩, ⟨[], by simp⟩⟩

theorem cgext_emitConstLoad (cg : CG) (v : Value) : CGext cg (emitConstLoad cg v) := by
  unfold emitConstLoad
  exact cgext_trans (cgext_addConst _ _) (cgext_emit _ _ _)

theorem cgext_emitWithName (cg : CG) (op : OpCode) (name : String) :
    CGext cg (emitWithName cg op name) := by
  unfold emitWithName
  exact cgext_trans (cgext_withPool _ _) (cgext_emit _ _ _)

theorem cgext_code_len {a b : CG} (h : CGext a b) : a.code.length ≤ b.code.length := by
  obtain ⟨⟨s, hs⟩, -⟩ := h
  simp [hs]

theorem cgext_patch {a b : CG} (h : CGext a b) (n t : Nat) (hn : a.code.length ≤ n) :
    CGext a (b.patch n t) := by
  obtain ⟨⟨s, hs⟩, ht⟩ := h
  refine ⟨⟨s.set (n - a.code.length) { b.code.getD n default with operand := (t : Int) }, ?_⟩, ht⟩
  show (b.code.set n { b.code.getD n default with operand := (t : Int) }) = _
  rw [hs, List.set_append_right n _ hn]

theorem cgext_binOpEmit (cg : CG) (op : String) : CGext cg (binOpEmit cg op) := by
  unfold binOpEmit
  split
  · exact cgext_emit _ _ _
  · exact cgext_refl _

theorem cgext_unOpEmit (cg : CG) (op : String) : CGext cg (unOpEmit cg op) := by
  unfold unOpEmit
  split
  · exact cgext_emit _ _ _
  · exact cgext_refl _

/-! Definitional one-step equations for `genRun` at successor fuel (the
automatically generated equations unfold through `eq_def`, which loops
under `simp`; these restate one unfolding and are proved by `rfl`). -/

theorem genRun_succ_expr (n : Nat) (e : Expr) (cg : CG) :
    genRun (n + 1) (.expr e) cg =
      match e with
      | .intLit v => some (emitConstLoad cg (.intV v))
      | .floatLit q => some (emitConstLoad cg (.floatV q))
      | .doubleLit q => some (emitConstLoad cg (.doubleV q))
      | .boolLit b => some (emitConstLoad cg (.boolV b))
      | .strLit str =>
          some (emitConstLoad { cg with pool := (poolAdd cg.pool str).2 }
            (.stringV ((poolAdd cg.pool str).1 : Int)))
      | .identE name =>
          match alookup cg.locals name with
          | some i => some (cg.emit .LOAD_VAR i)
          | none => some (emitWithName cg .LOAD_GLOBAL name)
      | .binE l op r =>
          match genRun n (.expr l) cg with
          | some cg₁ =>
            match genRun n (.expr r) cg₁ with
            | some cg₂ => some (binOpEmit cg₂ op)
            | none => none
          | none => none
      | .unE op e₁ =>
          match genRun n (.expr e₁) cg with
          | some cg₁ => some (unOpEmit cg₁ op)
          | none => none
      | .callE (.memberE (.identE objName) member) args =>
          if member = "emit" then
            match genRun n (.exprList args) cg with
            | some cg₁ => some (emitWithName cg₁ .SIGNAL_EMIT objName)
            | none => none
          else if member = "recv" then
            some (emitWithName cg .SIGNAL_RECV objName)
          else if member = "execute" then
            some (emitWithName cg .EVENT_EXECUTE objName)
          else
            match genRun n (.expr (.identE objName)) cg with
            | some cg₁ =>
              match genRun n (.exprList args) cg₁ with
              | some cg₂ =>
                  some (emitWithName
                    (emitConstLoad cg₂ (.intV ((args.length : Int) + 1))) .CALL member)
              | none => none
            | none => none
      | .callE (.memberE obj member) args =>
          match genRun n (.expr obj) cg with
          | some cg₁ =>
            match genRun n (.exprList args) cg₁ with
            | some cg₂ =>
                some (emitWithName
                  (emitConstLoad cg₂ (.intV ((args.length : Int) + 1))) .CALL member)
            | none => none
          | none => none
      | .callE callee args =>
          match genRun n (.exprList args) cg with
          | some cg₁ =>
            match callee with
            | .identE name =>
                some (emitWithName (emitConstLoad cg₁ (.intV (args.length : Int))) .CALL name)
            | _ => some (emitConstLoad cg₁ (.intV (args.length : Int)))
          | none => none
      | .memberE (.identE objName) member =>
          if member = "emit" then some (emitWithName cg .SIGNAL_EMIT objName)
          else if member = "recv" then some (emitWithName cg .SIGNAL_RECV objName)
          else if member = "execute" then some (emitWithName cg .EVENT_EXECUTE objName)
          else
            match genRun n (.expr (.identE objName)) cg with
            | some cg₁ => some (emitWithName cg₁ .GET_FIELD member)
            | none => none
      | .memberE obj member =>
          match genRun n (.expr obj) cg with
          | some cg₁ => some (emitWithName cg₁ .GET_FIELD member)
          | none => none
      | .indexE arr idx =>
          match genRun n (.expr arr) cg with
          | some cg₁ =>
            match genRun n (.expr idx) cg₁ with
            | some cg₂ => some (cg₂.emit .ARRAY_INDEX 0)
            | none => none
          | none => none
      | .arrayE elems =>
          match genRun n (.exprList elems) cg with
          | some cg₁ => some (cg₁.emit .BUILD_ARRAY (elems.length : Int))
          | none => none
      | .newE cname args =>
          match genRun n (.exprList args) cg with
          | some cg₁ =>
            match alookup (emitWithName cg₁ .NEW_OBJECT cname).classes
                (poolGet (poolAdd cg₁.pool cname).2 ((poolAdd cg₁.pool cname).1 : Int)) with
            | some cls => genRun n (.fieldInits cls.fields) (emitWithName cg₁ .NEW_OBJECT cname)
            | none => some (emitWithName cg₁ .NEW_OBJECT cname)
          | none => none
      | .thisE =>
          match alookup cg.locals "this" with
          | some i => some (cg.emit .LOAD_VAR i)
          | none => some cg := rfl

theorem genRun_succ_stmt (n : Nat) (s : Stmt) (cg : CG) :
    genRun (n + 1) (.stmt s) cg =
      match s with
      | .varDecl _ name init =>
        match init with
        | some e =>
          match genRun n (.expr e)
              { cg with locals := ainsert cg.locals name cg.nextLocal,
                        nextLocal := cg.nextLocal + 1 } with
          | some cg₂ => some (cg₂.emit .STORE_VAR cg.nextLocal)
          | none => none
        | none =>
          some ((emitConstLoad
            { cg with locals := ainsert cg.locals name cg.nextLocal,
                      nextLocal := cg.nextLocal + 1 } (.intV 0)).emit .STORE_VAR cg.nextLocal)
      | .ifS cond thenB elseB =>
        match genRun n (.expr cond) cg with
        | some cg₁ =>
          match genRun n (.stmt thenB) (cg₁.emit .JUMP_IF_FALSE 0) with
          | some cg₃ =>
            match elseB with
            | some eb =>
              match genRun n (.stmt eb)
                  ((cg₃.emit .JUMP 0).patch cg₁.code.length (cg₃.emit .JUMP 0).code.length) with
              | some cg₆ => some (cg₆.patch cg₃.code.length cg₆.code.length)
              | none => none
            | none =>
              some (((cg₃.emit .JUMP 0).patch cg₁.code.length
                  (cg₃.emit .JUMP 0).code.length).patch cg₃.code.length
                ((cg₃.emit .JUMP 0).patch cg₁.code.length (cg₃.emit .JUMP 0).code.length).code.length)
          | none => none
        | none => none
      | .whileS cond body =>
        match genRun n (.expr cond) cg with
        | some cg₁ =>
          match genRun n (.stmt body) (cg₁.emit .JUMP_IF_FALSE 0) with
          | some cg₃ =>
            some ((cg₃.emit .JUMP (cg.code.length : Int)).patch cg₁.code.length
              (cg₃.emit .JUMP (cg.code.length : Int)).code.length)
          | none => none
        | none => none
      | .returnS v =>
        match v with
        | some e =>
          match genRun n (.expr e) cg with
          | some cg₁ => some (cg₁.emit .RETURN 0)
          | none => none
        | none => some ((emitConstLoad cg (.intV 0)).emit .RETURN 0)
      | .exprS e =>
        match genRun n (.expr e) cg with
        | some cg₁ => some (cg₁.emit .POP 0)
        | none => none
      | .blockS ss => genRun n (.stmtList ss) cg
      | .forS => some cg
      | .breakS => some cg := rfl

theorem genRun_succ_stmtList (n : Nat) (ss : List Stmt) (cg : CG) :
    genRun (n + 1) (.stmtList ss) cg =
      match ss with
      | [] => some cg
      | s :: rest =>
        match genRun n (.stmt s) cg with
        | some cg₁ => genRun n (.stmtList rest) cg₁
        | none => none := rfl

theorem genRun_succ_exprList (n : Nat) (es : List Expr) (cg : CG) :
    genRun (n + 1) (.exprList es) cg =
      match es with
      | [] => some cg
      | e :: rest =>
        match genRun n (.expr e) cg with
        | some cg₁ => genRun n (.exprList rest) cg₁
        | none => none := rfl

theorem genRun_succ_fieldInits (n : Nat) (fs : List FieldDecl) (cg : CG) :
    genRun (n + 1) (.fieldInits fs) cg =
      match fs with
      | [] => some cg
      | f :: rest =>
        match f.init with
        | some e =>
          match genRun n (.expr e) (cg.emit .DUP 0) with
          | some cg₂ => genRun n (.fieldInits rest) (emitWithName cg₂ .SET_FIELD f.name)
          | none => none
        | none => genRun n (.fieldInits rest) cg := rfl

set_option maxHeartbeats 1600000 in
/-- The generator only appends: whatever request succeeds, the resulting
state's instruction stream and constant pool extend the input state's
(forward patches only touch the appended region). -/
theorem genRun_ext (fuel : Nat) (req : GenReq) (cg cg' : CG)
    (h : genRun fuel req cg = some cg') : CGext cg cg' := by
  induction fuel generalizing req cg cg' with
  | zero => simp [genRun] at h
  | succ n ih =>
    cases req with
    | expr e =>
      rw [genRun_succ_expr] at h
      split at h
      · obtain rfl := Option.some_injective _ h
        exact cgext_emitConstLoad _ _
      · obtain rfl := Option.some_injective _ h
        exact cgext_emitConstLoad _ _
      · obtain rfl := Option.some_injective _ h
        exact cgext_emitConstLoad _ _
      · obtain rfl := Option.some_injective _ h
        exact cgext_emitConstLoad _ _
      · obtain rfl := Option.some_injective _ h
        exact cgext_trans (cgext_withPool _ _) (cgext_emitConstLoad _ _)
      · -- identE
        split at h
        · obtain rfl := Option.some_injective _ h
          exact cgext_emit _ _ _
        · obtain rfl := Option.some_injective _ h
          exact cgext_emitWithName _ _ _
      · -- binE
        split at h
        · rename_i cg₁ heq₁
          split at h
          · rename_i cg₂ heq₂
            obtain rfl := Option.some_injective _ h
            exact cgext_trans (ih _ _ _ heq₁)
              (cgext_trans (ih _ _ _ heq₂) (cgext_binOpEmit _ _))
          · exact Option.noConfusion h
        · exact Option.noConfusion h
      · -- unE
        split at h
        · rename_i cg₁ heq₁
          obtain rfl := Option.some_injective _ h
          exact cgext_trans (ih _ _ _ heq₁) (cgext_unOpEmit _ _)
        · exact Option.noConfusion h
      · -- callE on (.memberE (.identE objName) member)
        split_ifs at h
        · split at h
          · rename_i cg₁ heq₁
            obtain rfl := Option.some_injective _ h
            exact cgext_trans (ih _ _ _ heq₁) (cgext_emitWithName _ _ _)
          · exact Option.noConfusion h
        · obtain rfl := Option.some_injective _ h
          exact cgext_emitWithName _ _ _
        · obtain rfl := Option.some_injective _ h
          exact cgext_emitWithName _ _ _
        · split at h
          · rename_i cg₁ heq₁
            split at h
            · rename_i cg₂ heq₂
              obtain rfl := Option.some_injective _ h
              exact cgext_trans (ih _ _ _ heq₁)
                (cgext_trans (ih _ _ _ heq₂)
                  (cgext_trans (cgext_emitConstLoad _ _) (cgext_emitWithName _ _ _)))
            · exact Option.noConfusion h
          · exact Option.noConfusion h
      · -- callE on (.memberE obj member), non-identifier receiver
        split at h
        · rename_i cg₁ heq₁
          split at h
          · rename_i cg₂ heq₂
            obtain rfl := Option.some_injective _ h
            exact cgext_trans (ih _ _ _ heq₁)
              (cgext_trans (ih _ _ _ heq₂)
                (cgext_trans (cgext_emitConstLoad _ _) (cgext_emitWithName _ _ _)))
          · exact Option.noConfusion h
        · exact Option.noConfusion h
      · -- callE, other callees
        split at h
        · rename_i cg₁ heq₁
          split at h
          · obtain rfl := Option.some_injective _ h
            exact cgext_trans (ih _ _ _ heq₁)
              (cgext_trans (cgext_emitConstLoad _ _) (cgext_emitWithName _ _ _))
          · obtain rfl := Option.some_injective _ h
            exact cgext_trans (ih _ _ _ heq₁) (cgext_emitConstLoad _ _)
        · exact Option.noConfusion h
      · -- memberE on an identifier object
        split_ifs at h
        · obtain rfl := Option.some_injective _ h
          exact cgext_emitWithName _ _ _
        · obtain rfl := Option.some_injective _ h
          exact cgext_emitWithName _ _ _
        · obtain rfl := Option.some_injective _ h
          exact cgext_emitWithName _ _ _
        · split at h
          · rename_i cg₁ heq₁
            obtain rfl := Option.some_injective _ h
            exact cgext_trans (ih _ _ _ heq₁) (cgext_emitWithName _ _ _)
          · exact Option.noConfusion h
      · -- memberE, other objects
        split at h
        · rename_i cg₁ heq₁
          obtain rfl := Option.some_injective _ h
          exact cgext_trans (ih _ _ _ heq₁) (cgext_emitWithName _ _ _)
        · exact Option.noConfusion h
      · -- indexE
        split at h
        · rename_i cg₁ heq₁
          split at h
          · rename_i cg₂ heq₂
            obtain rfl := Option.some_injective _ h
            exact cgext_trans (ih _ _ _ heq₁)
              (cgext_trans (ih _ _ _ heq₂) (cgext_emit _ _ _))
          · exact Option.noConfusion h
        · exact Option.noConfusion h
      · -- arrayE
        split at h
        · rename_i cg₁ heq₁
          obtain rfl := Option.some_injective _ h
          exact cgext_trans (ih _ _ _ heq₁) (cgext_emit _ _ _)
        · exact Option.noConfusion h
      · -- newE
        split at h
        · rename_i cg₁ heq₁
          split at h
          · exact cgext_trans (ih _ _ _ heq₁)
              (cgext_trans (cgext_emitWithName _ _ _) (ih _ _ _ h))
          · obtain rfl := Option.some_injective _ h
            exact cgext_trans (ih _ _ _ heq₁) (cgext_emitWithName _ _ _)
        · exact Option.noConfusion h
      · -- thisE
        split at h
        · obtain rfl := Option.some_injective _ h
          exact cgext_emit _ _ _
        · obtain rfl := Option.some_injective _ h
          exact cgext_refl _
    | exprList es =>
      rw [genRun_succ_exprList] at h
      split at h
      · obtain rfl := Option.some_injective _ h
        exact cgext_refl _
      · split at h
        · rename_i cg₁ heq₁
          exact cgext_trans (ih _ _ _ heq₁) (ih _ _ _ h)
        · exact Option.noConfusion h
    | fieldInits fs =>
      rw [genRun_succ_fieldInits] at h
      split at h
      · obtain rfl := Option.some_injective _ h
        exact cgext_refl _
      · split at h
        · split at h
          · rename_i cg₂ heq₂
            exact cgext_trans (cgext_emit _ _ _)
              (cgext_trans (ih _ _ _ heq₂)
                (cgext_trans (cgext_emitWithName _ _ _) (ih _ _ _ h)))
          · exact Option.noConfusion h
        · exact ih _ _ _ h
    | stmt s =>
      rw [genRun_succ_stmt] at h
      split at h
      · -- varDecl
        split at h
        · split at h
          · rename_i cg₂ heq₂
            obtain rfl := Option.some_injective _ h
            exact cgext_trans (cgext_withLocals _ _ _)
              (cgext_trans (ih _ _ _ heq₂) (cgext_emit _ _ _))
          · exact Option.noConfusion h
        · obtain rfl := Option.some_injective _ h
          exact cgext_trans (cgext_withLocals _ _ _)
            (cgext_trans (cgext_emitConstLoad _ _) (cgext_emit _ _ _))
      · -- ifS
        split at h
        · rename_i cg₁ heq₁
          split at h
          · rename_i cg₃ heq₃
            have e₁ : CGext cg cg₁ := ih _ _ _ heq₁
            have e₃ : CGext cg cg₃ :=
              cgext_trans e₁ (cgext_trans (cgext_emit _ _ _) (ih _ _ _ heq₃))
            have e₅ : CGext cg ((cg₃.emit .JUMP 0).patch cg₁.code.length
                (cg₃.emit .JUMP 0).code.length) :=
              cgext_patch (cgext_trans e₃ (cgext_emit _ _ _)) _ _ (cgext_code_len e₁)
            split at h
            · split at h
              · rename_i cg₆ heq₆
                obtain rfl := Option.some_injective _ h
                exact cgext_patch (cgext_trans e₅ (ih _ _ _ heq₆)) _ _ (cgext_code_len e₃)
              · exact Option.noConfusion h
            · obtain rfl := Option.some_injective _ h
              exact cgext_patch e₅ _ _ (cgext_code_len e₃)
          · exact Option.noConfusion h
        · exact Option.noConfusion h
      · -- whileS
        split at h
        · rename_i cg₁ heq₁
          split at h
          · rename_i cg₃ heq₃
            obtain rfl := Option.some_injective _ h
            have e₁ : CGext cg cg₁ := ih _ _ _ heq₁
            exact cgext_patch
              (cgext_trans e₁
                (cgext_trans (cgext_emit _ _ _)
                  (cgext_trans (ih _ _ _ heq₃) (cgext_emit _ _ _))))
              _ _ (cgext_code_len e₁)
          · exact Option.noConfusion h
        · exact Option.noConfusion h
      · -- returnS
        split at h
        · split at h
          · rename_i cg₁ heq₁
            obtain rfl := Option.some_injective _ h
            exact cgext_trans (ih _ _ _ heq₁) (cgext_emit _ _ _)
          · exact Option.noConfusion h
        · obtain rfl := Option.some_injective _ h
          exact cgext_trans (cgext_emitConstLoad _ _) (cgext_emit _ _ _)
      · -- exprS
        split at h
        · rename_i cg₁ heq₁
          obtain rfl := Option.some_injective _ h
          exact cgext_trans (ih _ _ _ heq₁) (cgext_emit _ _ _)
        · exact Option.noConfusion h
      · exact ih _ _ _ h
      · obtain rfl := Option.some_injective _ h
        exact cgext_refl _
      · obtain rfl := Option.some_injective _ h
        exact cgext_refl _
    | stmtList ss =>
      rw [genRun_succ_stmtList] at h
      split at h
      · obtain rfl := Option.some_injective _ h
        exact cgext_refl _
      · split at h
        · rename_i cg₁ heq₁
          exact cgext_trans (ih _ _ _ heq₁) (ih _ _ _ h)
        · exact Option.noConfusion h

/-! ## C7: the implicit zero-constant return epilogue -/

/-- **C7.** For every function declaration and every class method that the
bytecode compiler successfully translates, the produced instruction stream
ends with a `LOAD_CONST` of a constant-pool slot holding the integer zero,
immediately followed by `RETURN`, regardless of whether the body ends in
an explicit return (`CodeGenerator::generate_function` and the method loop
of `generate_class` both append this epilogue unconditionally). -/
theorem codegen_implicit_zero_return :
    (∀ fuel f cg cg' stream,
      generateFunction fuel f cg = some (cg', stream) →
      ∃ pre k,
        stream = pre ++ [⟨.LOAD_CONST, (k : Int)⟩, ⟨.RETURN, 0⟩] ∧
        k < cg'.constants.length ∧ cg'.constants[k]? = some (.intV 0)) ∧
    (∀ fuel clsName m cg cg' key stream,
      generateMethod fuel clsName m cg = some (cg', key, stream) →
      ∃ pre k,
        stream = pre ++ [⟨.LOAD_CONST, (k : Int)⟩, ⟨.RETURN, 0⟩] ∧
        k < cg'.constants.length ∧ cg'.constants[k]? = some (.intV 0)) := by
  constructor
  · intro fuel f cg cg' stream h
    unfold generateFunction at h
    split at h
    · rename_i cg₃ heq
      simp only [Option.some.injEq, Prod.mk.injEq] at h
      obtain ⟨rfl, rfl⟩ := h
      refine ⟨cg₃.code, cg₃.constants.length, ?_, ?_, ?_⟩
      · show (cg₃.code ++ [⟨.LOAD_CONST, (cg₃.constants.length : Int)⟩]) ++ [⟨.RETURN, 0⟩] = _
        simp
      · show cg₃.constants.length < (cg₃.constants ++ [Value.intV 0]).length
        simp
      · show (cg₃.constants ++ [Value.intV 0])[cg₃.constants.length]? = some (.intV 0)
        exact List.getElem?_concat_length _ _
    · exact Option.noConfusion h
  · intro fuel clsName m cg cg' key stream h
    unfold generateMethod at h
    split at h
    · rename_i cg₄ heq
      simp only [Option.some.injEq, Prod.mk.injEq] at h
      obtain ⟨rfl, rfl, rfl⟩ := h
      refine ⟨cg₄.code, cg₄.constants.length, ?_, ?_, ?_⟩
      · show (cg₄.code ++ [⟨.LOAD_CONST, (cg₄.constants.length : Int)⟩]) ++ [⟨.RETURN, 0⟩] = _
        simp
      · show cg₄.constants.length < (cg₄.constants ++ [Value.intV 0]).length
        simp
      · show (cg₄.constants ++ [Value.intV 0])[cg₄.constants.length]? = some (.intV 0)
        exact List.getElem?_concat_length _ _
    · exact Option.noConfusion h

/-- Witness for C7: concrete runs of `generateFunction` on a function with
an explicit terminal return and of `generateMethod` on a method with an
empty body. -/
theorem codegen_implicit_zero_return_witness :
    (∃ pre k, fnStream = pre ++ [⟨.LOAD_CONST, (k : Int)⟩, ⟨.RETURN, 0⟩] ∧
      k < fnOut.constants.length ∧ fnOut.constants[k]? = some (.intV 0)) ∧
    (∃ pre k, mStream = pre ++ [⟨.LOAD_CONST, (k : Int)⟩, ⟨.RETURN, 0⟩] ∧
      k < mOut.constants.length ∧ mOut.constants[k]? = some (.intV 0)) :=
  ⟨codegen_implicit_zero_return.1 3 f0 cg0 fnOut fnStream rfl,
   codegen_implicit_zero_return.2 2 "C" m0 cg0 mOut ("C" ++ "." ++ m0.name) mStream rfl⟩

/-! ## C5: `new C(args)` emission -/

theorem poolGet_poolAdd (pool : List String) (s : String) :
    poolGet (poolAdd pool s).2 ((poolAdd pool s).1 : Int) = s := by
  unfold poolGet
  rw [if_pos]
  · simpa using poolAdd_getD_fst pool s
  · exact ⟨Int.ofNat_nonneg _, by exact_mod_cast poolAdd_fst_lt pool s⟩

/-- **C5 counterexample.** Generating `new C()` against a class map in
which class `C` declares a method named `C` (the claim's constructor)
emits only `NEW_OBJECT`: no `CALL` — indeed no instruction at all — is
emitted for the constructor, refuting the claim's constructor-invocation
clause (`generate_new_expr` never consults the class's methods). -/
theorem new_expr_constructor_counterexample :
    genRun 4 (.expr (.newE "C" [])) cgWithCtor = some cgNew ∧
    (ctorClass.methods.any fun m => m.name == ctorClass.name) = true ∧
    (cgNew.code.any fun i => i.opcode == .CALL) = false :=
  ⟨rfl, rfl, rfl⟩

/-- **C5 (amended).** `new C(args)` emits the arguments, then
`NEW_OBJECT(C)` whose operand indexes the class name in the string pool;
each field of `C` with an initializer contributes `DUP`, the initializer
expression, then `SET_FIELD(field name)`; and nothing else is emitted —
in particular, when no field has an initializer the emission ends at
`NEW_OBJECT`, with no constructor call (the claim's constructor clause
does not hold of `generate_new_expr`). -/
theorem new_expr_amended :
    (∀ fuel cname args cg cg',
      genRun (fuel + 1) (.expr (.newE cname args)) cg = some cg' →
      ∃ cg₁, genRun fuel (.exprList args) cg = some cg₁ ∧
        poolGet (poolAdd cg₁.pool cname).2 ((poolAdd cg₁.pool cname).1 : Int) = cname ∧
        ∃ s, cg'.code =
          cg₁.code ++ ⟨.NEW_OBJECT, ((poolAdd cg₁.pool cname).1 : Int)⟩ :: s) ∧
    (∀ fuel (f : FieldDecl) rest e cg cg',
      f.init = some e →
      genRun (fuel + 1) (.fieldInits (f :: rest)) cg = some cg' →
      ∃ cg₂, genRun fuel (.expr e) (cg.emit .DUP 0) = some cg₂ ∧
        (∃ s, cg₂.code = cg.code ++ ⟨.DUP, 0⟩ :: s) ∧
        genRun fuel (.fieldInits rest) (emitWithName cg₂ .SET_FIELD f.name) = some cg') ∧
    (∀ fuel (fs : List FieldDecl) cg cg',
      (∀ f ∈ fs, f.init = none) →
      genRun fuel (.fieldInits fs) cg = some cg' → cg' = cg) := by
  refine ⟨?_, ?_, ?_⟩
  · intro fuel cname args cg cg' h
    have hstep : genRun (fuel + 1) (.expr (.newE cname args)) cg =
        match genRun fuel (.exprList args) cg with
        | some cg₁ =>
          match alookup (emitWithName cg₁ .NEW_OBJECT cname).classes
              (poolGet (poolAdd cg₁.pool cname).2 ((poolAdd cg₁.pool cname).1 : Int)) with
          | some cls => genRun fuel (.fieldInits cls.fields) (emitWithName cg₁ .NEW_OBJECT cname)
          | none => some (emitWithName cg₁ .NEW_OBJECT cname)
        | none => none := rfl
    rw [hstep] at h
    split at h
    · rename_i cg₁ heq₁
      refine ⟨cg₁, heq₁, poolGet_poolAdd _ _, ?_⟩
      split at h
      · obtain ⟨⟨s, hs⟩, -⟩ := genRun_ext _ _ _ _ h
        exact ⟨s, by simpa [emitWithName, CG.emit] using hs⟩
      · obtain rfl := Option.some_injective _ h
        exact ⟨[], by simp [emitWithName, CG.emit]⟩
    · exact Option.noConfusion h
  · intro fuel f rest e cg cg' hinit h
    have hstep : genRun (fuel + 1) (.fieldInits (f :: rest)) cg =
        match f.init with
        | some e =>
          match genRun fuel (.expr e) (cg.emit .DUP 0) with
          | some cg₂ => genRun fuel (.fieldInits rest) (emitWithName cg₂ .SET_FIELD f.name)
          | none => none
        | none => genRun fuel (.fieldInits rest) cg := rfl
    rw [hstep] at h
    split at h
    · rename_i e' heq'
      rw [hinit] at heq'
      obtain rfl : e = e' := Option.some_injective _ heq'
      split at h
      · rename_i cg₂ heq₂
        obtain ⟨⟨s, hs⟩, -⟩ := genRun_ext _ _ _ _ heq₂
        exact ⟨cg₂, heq₂, ⟨s, by simpa [CG.emit] using hs⟩, h⟩
      · exact Option.noConfusion h
    · rename_i heq'
      rw [hinit] at heq'
      exact Option.noConfusion heq'
  · intro fuel fs
    induction fs generalizing fuel with
    | nil =>
      intro cg cg' hall h
      cases fuel with
      | zero => simp [genRun] at h
      | succ n =>
        rw [genRun_succ_fieldInits] at h
        exact (Option.some_injective _ h).symm
    | cons f rest ih =>
      intro cg cg' hall h
      cases fuel with
      | zero => simp [genRun] at h
      | succ n =>
        have hstep : genRun (n + 1) (.fieldInits (f :: rest)) cg =
            match f.init with
            | some e =>
              match genRun n (.expr e) (cg.emit .DUP 0) with
              | some cg₂ => genRun n (.fieldInits rest) (emitWithName cg₂ .SET_FIELD f.name)
              | none => none
            | none => genRun n (.fieldInits rest) cg := rfl
        rw [hstep, hall f (List.mem_cons_self f rest)] at h
        exact ih n cg cg' (fun g hg => hall g (List.mem_cons_of_mem f hg)) h

/-- Witness for the amended C5 theorem: `new C()` against `cgWithCtor`
(arguments then `NEW_OBJECT`), one initialized field (the
`DUP`/initializer/`SET_FIELD` step), and one uninitialized field (the
loop emits nothing). -/
theorem new_expr_amended_witness :
    (∃ cg₁, genRun 2 (.exprList []) cgWithCtor = some cg₁ ∧
      poolGet (poolAdd cg₁.pool "C").2 ((poolAdd cg₁.pool "C").1 : Int) = "C" ∧
      ∃ s, cgNew.code = cg₁.code ++ ⟨.NEW_OBJECT, ((poolAdd cg₁.pool "C").1 : Int)⟩ :: s) ∧
    (∃ cg₂, genRun 2 (.expr (.intLit 1)) (cg0.emit .DUP 0) = some cg₂ ∧
      (∃ s, cg₂.code = cg0.code ++ ⟨.DUP, 0⟩ :: s) ∧
      genRun 2 (.fieldInits []) (emitWithName cg₂ .SET_FIELD f1.name) = some fiOut) ∧
    cg0 = cg0 :=
  ⟨new_expr_amended.1 2 "C" [] cgWithCtor cgNew rfl,
   new_expr_amended.2.1 2 f1 [] (.intLit 1) cg0 fiOut rfl rfl,
   new_expr_amended.2.2 2 [f2] cg0 cg0
     (fun g hg => by rw [List.mem_singleton] at hg; subst hg; rfl) rfl⟩

/-! ## C9: the two dispatch loops of the interpreter -/

/-- **C9 counterexample.** On `LOAD_CONST 0; LOAD_CONST 1; CONCAT; RETURN`
with two string constants, `Interpreter::execute` concatenates (interning
`"ab"` as pool index 2) while `Interpreter::execute_function` — whose
`switch` has no `CONCAT` case — silently skips the instruction and returns
the top of the unchanged stack (pool index 1): the two dispatch loops do
not implement identical instruction semantics. -/
theorem interp_dispatch_counterexample :
    resultValue (interpExecute 8 concatProgram [.stringV 0, .stringV 1]
      (rtWith ["a", "b"] [])) = some (.stringV 2) ∧
    resultValue (interpExecuteFunction 8 concatProgram [.stringV 0, .stringV 1] []
      (rtWith ["a", "b"] [])) = some (.stringV 1) ∧
    some (Value.stringV 2) ≠ some (Value.stringV 1) := by
  decide

set_option maxHeartbeats 3200000 in
/-- **C9 (amended).** The two dispatch loops agree on every instruction
stream that contains no `CONCAT`, no `JUMP_IF_FALSE` and no `JUMP_IF_TRUE`
— the three opcodes on which the C++ bodies differ (`execute_function`
lacks a `CONCAT` case and its conditional jumps read only the `bool_val`
union member, with no integer fallback).  On such streams
`Interpreter::execute` and `Interpreter::execute_function` with an empty
argument list produce the same result from the same state. -/
theorem interp_dispatch_amended (code : List Instruction)
    (hc : ∀ i ∈ code,
      i.opcode ≠ .CONCAT ∧ i.opcode ≠ .JUMP_IF_FALSE ∧ i.opcode ≠ .JUMP_IF_TRUE) :
    (∀ fuel consts stack locals pc rt,
      vmRun fuel (.exec code consts stack locals pc) rt =
      vmRun fuel (.execFn code consts stack locals pc) rt) ∧
    (∀ fuel consts rt,
      interpExecute fuel code consts rt = interpExecuteFunction fuel code consts [] rt) := by
  have main : ∀ fuel consts stack locals pc rt,
      vmRun fuel (.exec code consts stack locals pc) rt =
      vmRun fuel (.execFn code consts stack locals pc) rt := by
    intro fuel
    induction fuel with
    | zero => intro consts stack locals pc rt; rfl
    | succ n ih =>
      intro consts stack locals pc rt
      by_cases hpc : pc < code.length
      · have hmem : code.getD pc default ∈ code := by
          rw [List.getD_eq_getElem?_getD, List.getElem?_eq_getElem hpc]
          exact List.getElem_mem hpc
        simp only [vmRun]
        rw [if_pos hpc]
        cases hop : (code.getD pc default).opcode
        all_goals try exact absurd hop (hc _ hmem).1
        all_goals try exact absurd hop (hc _ hmem).2.1
        all_goals try exact absurd hop (hc _ hmem).2.2
        all_goals dsimp only
        all_goals (repeat' split) <;> first | rfl | exact ih _ _ _ _ _
      · simp only [vmRun]
        rw [if_neg hpc, if_neg hpc]
  refine ⟨main, fun fuel consts rt => ?_⟩
  unfold interpExecute interpExecuteFunction
  rw [main fuel consts [] (localsInit []) 0 rt]

/-- Witness for the amended C9 theorem: the two loops agree on the
concrete division program. -/
theorem interp_dispatch_amended_witness :
    interpExecute 6 divProgram [Value.intV 6, Value.intV 2] (rtWith [] []) =
      interpExecuteFunction 6 divProgram [Value.intV 6, Value.intV 2] [] (rtWith [] []) :=
  (interp_dispatch_amended divProgram (by decide)).2 6 [Value.intV 6, Value.intV 2]
    (rtWith [] [])

end Tick

